import Mathlib

/-!
Shallow embedding of `crates/oxc_transformer/src/es2022/class_properties/static_prop_init.rs`:
the `StaticInitializerVisitor` that rewrites `this`, class-name references, `delete this`
and `super` member forms inside a static property initializer, re-parents first-level
scopes, and propagates sloppy (non-strict) mode.

The visitor's host data (scope / symbol tables, class bindings, the driver's delegate
operations) are external collaborators of the source file; they are modelled from the
spec where noted.  Everything else is translated directly from the Rust source.
-/

namespace StaticPropInit

/-- A bound identifier: a symbol id together with its name (models `BoundIdentifier`). -/
structure Binding where
  symbol_id : Nat
  name : String
deriving Repr, DecidableEq

/-- The bindings of the class being transformed (models `ClassBindings`):
an optional class-name binding and the lazily created temp-var binding. -/
structure ClassBindings where
  name : Option Binding
  static_binding : Option Binding
deriving Repr, DecidableEq

/-- The part of the `ClassProperties` transform driver state that this visitor touches:
the current class's bindings. -/
structure ClassProperties where
  bindings : ClassBindings
deriving Repr, DecidableEq

/-- Which of the driver's five `super`-rewrite delegate operations was invoked. -/
inductive SuperKind where
  | staticMember
  | computedMember
  | callMember
  | assignTarget
  | updateTarget
deriving Repr, DecidableEq

/-- The `TraverseCtx` as this visitor sees it: scope table (parent pointer and
strict-mode flag per scope id), symbol table (resolution of each reference id, and the
set of resolved references of each symbol id), the current (call-site) scope, fresh-id
counters, the name the driver would generate for the temp binding, and a log of the
delegate invocations made on the driver. -/
structure Ctx where
  scope_parent : Nat → Option Nat
  scope_strict : Nat → Bool
  ref_symbol : Nat → Option Nat
  resolved_refs : Nat → List Nat
  current_scope_id : Nat
  next_symbol_id : Nat
  next_reference_id : Nat
  temp_name : String
  super_log : List (SuperKind × Nat)

mutual

/-- Expressions, restricted to the constructors this transform distinguishes
(all others fall through to plain structural recursion in the source). -/
inductive Expr where
  | thisE (span : Nat)
  | superE (span : Nat)
  | deleteThis (span thisSpan : Nat)
  | unary (span : Nat) (arg : Expr)
  | boolLit (span : Nat) (value : Bool)
  | ident (span reference_id : Nat) (name : String)
  | staticMember (span : Nat) (obj : Expr) ( prop : String)
  | computedMember (span : Nat) (obj idx : Expr)
  | callE (span : Nat) (callee : Expr) (args : List Expr)
  | assign (span : Nat) (target value : Expr)
  | update (span : Nat) (target : Expr)
  | fn (scope_id : Nat) (use_strict : Bool) (body : List Stmt)
  | arrow (scope_id : Nat) (use_strict : Bool) (body : List Stmt)
  | classE (scope_id : Nat) (elements : List ClassElem)

/-- Statements (function / arrow / block bodies). -/
inductive Stmt where
  | exprStmt (e : Expr)
  | block (scope_id : Nat) (body : List Stmt)
  | moduleBlock (scope_id : Nat) (use_strict : Bool) (body : List Stmt)

/-- Elements of a class body. -/
inductive ClassElem where
  | propertyDef (computed : Bool) (key : Expr) (value : Option Expr)
  | accessorProp (computed : Bool) (key : Expr) (value : Option Expr)
  | staticBlock (scope_id : Nat) (body : List Stmt)

end

/-- The visitor state: the four control fields of `StaticInitializerVisitor` plus the
mutably borrowed `ClassProperties` driver and `TraverseCtx`. -/
structure VState where
  walk_deep : Bool
  make_sloppy_mode : Bool
  this_depth : Nat
  scope_depth : Nat
  class_properties : ClassProperties
  ctx : Ctx

/-- Modelled from the spec: `ClassBindings::get_or_init_static_binding`, the external
create-if-absent operation for the class temp binding ("lazily obtain (create-if-absent)
the class's temporary binding").  When absent it is created with a fresh symbol id and
the generated name. -/
def getOrInitStaticBinding (cp : ClassProperties) (ctx : Ctx) :
    ClassProperties × Ctx × Binding :=
  match cp.bindings.static_binding with
  | some b => (cp, ctx, b)
  | none =>
      let b : Binding := ⟨ctx.next_symbol_id, ctx.temp_name⟩
      ({ bindings := { cp.bindings with static_binding := some b } },
       { ctx with next_symbol_id := ctx.next_symbol_id + 1 }, b)

/-- Modelled from the spec: `BoundIdentifier::create_spanned_read_expression`, the
external operation that creates "a read expression of the class's temporary binding
carrying the same source span": a fresh identifier reference resolving to the binding's
symbol, registered in the symbol table. -/
def createSpannedReadExpression (b : Binding) (span : Nat) (ctx : Ctx) : Ctx × Expr :=
  let rid := ctx.next_reference_id
  ({ ctx with
      next_reference_id := rid + 1
      ref_symbol := fun r => if r = rid then some b.symbol_id else ctx.ref_symbol r
      resolved_refs := fun sym =>
        if sym = b.symbol_id then ctx.resolved_refs sym ++ [rid]
        else ctx.resolved_refs sym },
   Expr.ident span rid b.name)

/-- Translation of `replace_this_with_temp_var`: replace `this` with a reference to the
temp var for the class, when `this_depth == 0`. -/
def replace_this_with_temp_var (s : VState) (e : Expr) (span : Nat) : VState × Expr :=
  if s.this_depth = 0 then
    let r := getOrInitStaticBinding s.class_properties s.ctx
    let r2 := createSpannedReadExpression r.2.2 span r.2.1
    ({ s with class_properties := r.1, ctx := r2.1 }, r2.2)
  else (s, e)

/-- Translation of `replace_class_name_with_temp_var`: if the identifier (given by its
reference id and text) resolves to the class's own name symbol, rename it to the temp
binding's name, re-point its resolution, and move it between the two symbols' resolved
reference sets.  Returns the new identifier text. -/
def replace_class_name_with_temp_var (s : VState) (reference_id : Nat) (name : String) :
    VState × String :=
  match s.class_properties.bindings.name with
  | none => (s, name)
  | some nb =>
    match s.ctx.ref_symbol reference_id with
    | none => (s, name)
    | some symbol_id =>
      if symbol_id ≠ nb.symbol_id then (s, name)
      else
        let r := getOrInitStaticBinding s.class_properties s.ctx
        let b := r.2.2
        -- `set_symbol_id`
        let ctx1 := { r.2.1 with
          ref_symbol := fun rr =>
            if rr = reference_id then some b.symbol_id else (r.2.1).ref_symbol rr }
        -- `delete_resolved_reference(symbol_id, reference_id)`
        let ctx2 := { ctx1 with
          resolved_refs := fun sym =>
            if sym = symbol_id then (ctx1.resolved_refs sym).filter (fun rr => rr ≠ reference_id)
            else ctx1.resolved_refs sym }
        -- `add_resolved_reference(temp.symbol_id, reference_id)`
        let ctx3 := { ctx2 with
          resolved_refs := fun sym =>
            if sym = b.symbol_id then ctx2.resolved_refs sym ++ [reference_id]
            else ctx2.resolved_refs sym }
        ({ s with class_properties := r.1, ctx := ctx3 }, b.name)

/-- Translation of `replace_delete_this_with_true`: replace `delete this` with `true`
when `this_depth == 0`. -/
def replace_delete_this_with_true (s : VState) (e : Expr) (span : Nat) : VState × Expr :=
  if s.this_depth = 0 then (s, Expr.boolLit span true) else (s, e)

/-- Translation of `reparent_scope_if_first_level`: update parent of the scope to the
scope current at the call site, if this is a first-level scope. -/
def reparent_scope_if_first_level (s : VState) (scope_id : Nat) : VState :=
  if s.scope_depth = 0 then
    { s with ctx := { s.ctx with
        scope_parent := fun sc =>
          if sc = scope_id then some s.ctx.current_scope_id else s.ctx.scope_parent sc } }
  else s

/-- Translation of the visitor's `enter_scope`: clear the scope's strict-mode flag when
`make_sloppy_mode == true`. -/
def enter_scope (s : VState) (scope_id : Nat) : VState :=
  if s.make_sloppy_mode then
    { s with ctx := { s.ctx with
        scope_strict := fun sc => if sc = scope_id then false else s.ctx.scope_strict sc } }
  else s

/-- Modelled from the spec: the driver's `super`-rewrite delegate operations
("each consuming and producing the same node in place"); the invocation is recorded in
the log together with the node's span. -/
def delegateSuper (s : VState) (kind : SuperKind) (span : Nat) : VState :=
  { s with ctx := { s.ctx with super_log := s.ctx.super_log ++ [(kind, span)] } }

/-- Translation of `transform_static_member_expression_if_super`. -/
def transform_static_member_expression_if_super (s : VState) (span : Nat) : VState :=
  if s.this_depth = 0 then delegateSuper s .staticMember span else s

/-- Translation of `transform_computed_member_expression_if_super`. -/
def transform_computed_member_expression_if_super (s : VState) (span : Nat) : VState :=
  if s.this_depth = 0 then delegateSuper s .computedMember span else s

/-- Translation of `transform_call_expression_if_super_member_expression`. -/
def transform_call_expression_if_super_member_expression (s : VState) (span : Nat) : VState :=
  if s.this_depth = 0 then delegateSuper s .callMember span else s

/-- Translation of `transform_assignment_expression_if_super_member_assignment_target`. -/
def transform_assignment_expression_if_super (s : VState) (span : Nat) : VState :=
  if s.this_depth = 0 then delegateSuper s .assignTarget span else s

/-- Translation of `transform_update_expression_if_super_member_assignment_target`. -/
def transform_update_expression_if_super (s : VState) (span : Nat) : VState :=
  if s.this_depth = 0 then delegateSuper s .updateTarget span else s

mutual

/-- Translation of the visitor's `visit_expression` together with the default walkers
it falls through to (`walk_expression` and the per-node default visits). -/
def visit_expression (s : VState) (e : Expr) : VState × Expr :=
  match e with
  | .thisE span => replace_this_with_temp_var s (.thisE span) span
  | .deleteThis span tspan => replace_delete_this_with_true s (.deleteThis span tspan) span
  | .superE span => (s, .superE span)
  | .boolLit span v => (s, .boolLit span v)
  | .unary span arg =>
      let r := visit_expression s arg
      (r.1, .unary span r.2)
  | .ident span rid name =>
      -- `walk_expression` dispatches to the overridden `visit_identifier_reference`
      let r := replace_class_name_with_temp_var s rid name
      (r.1, .ident span rid r.2)
  | .staticMember span obj p =>
      let s1 := transform_static_member_expression_if_super s span
      let r := visit_expression s1 obj
      (r.1, .staticMember span r.2 p)
  | .computedMember span obj idx =>
      let s1 := transform_computed_member_expression_if_super s span
      let r1 := visit_expression s1 obj
      let r2 := visit_expression r1.1 idx
      (r2.1, .computedMember span r1.2 r2.2)
  | .callE span callee args =>
      let s1 := transform_call_expression_if_super_member_expression s span
      let r1 := visit_expression s1 callee
      let r2 := visit_expression_list r1.1 args
      (r2.1, .callE span r1.2 r2.2)
  | .assign span target value =>
      let s1 := transform_assignment_expression_if_super s span
      let r1 := visit_assignment_target s1 target
      let r2 := visit_expression r1.1 value
      (r2.1, .assign span r1.2 r2.2)
  | .update span target =>
      let s1 := transform_update_expression_if_super s span
      let r := visit_assignment_target s1 target
      (r.1, .update span r.2)
  | .fn scope_id use_strict body =>
      -- translation of the overridden `visit_function`
      let parent_sloppy := s.make_sloppy_mode
      let s1 := if s.make_sloppy_mode && use_strict then
          { s with make_sloppy_mode := false } else s
      let s2 := reparent_scope_if_first_level s1 scope_id
      let r :=
        if s2.walk_deep then
          let s3 := { s2 with this_depth := s2.this_depth + 1,
                              scope_depth := s2.scope_depth + 1 }
          -- `walk_function` enters the function's scope, then visits the body
          let s4 := enter_scope s3 scope_id
          let rb := visit_statements s4 body
          ({ rb.1 with this_depth := rb.1.this_depth - 1,
                       scope_depth := rb.1.scope_depth - 1 }, rb.2)
        else (s2, body)
      ({ r.1 with make_sloppy_mode := parent_sloppy }, .fn scope_id use_strict r.2)
  | .arrow scope_id use_strict body =>
      -- translation of the overridden `visit_arrow_function_expression`
      let parent_sloppy := s.make_sloppy_mode
      let s1 := if s.make_sloppy_mode && use_strict then
          { s with make_sloppy_mode := false } else s
      let s2 := reparent_scope_if_first_level s1 scope_id
      let s3 := { s2 with scope_depth := s2.scope_depth + 1 }
      let s4 := enter_scope s3 scope_id
      let rb := visit_statements s4 body
      ({ rb.1 with scope_depth := rb.1.scope_depth - 1,
                   make_sloppy_mode := parent_sloppy },
       .arrow scope_id use_strict rb.2)
  | .classE scope_id elements =>
      -- translation of the overridden `visit_class`: classes are always strict mode
      let parent_sloppy := s.make_sloppy_mode
      let s1 := { s with make_sloppy_mode := false }
      let s2 := reparent_scope_if_first_level s1 scope_id
      let s3 := { s2 with scope_depth := s2.scope_depth + 1 }
      let s4 := enter_scope s3 scope_id
      let rb := visit_class_elements s4 elements
      ({ rb.1 with scope_depth := rb.1.scope_depth - 1,
                   make_sloppy_mode := parent_sloppy },
       .classE scope_id rb.2)

/-- Translation of the default walk of assignment targets (`walk_assignment_target` /
`walk_simple_assignment_target`): identifier targets go through
`visit_identifier_reference`; member-expression targets have their parts walked
directly, without the `visit_expression` member-expression dispatch (so no `super`
delegate fires for the target itself).  Destructuring patterns are not modelled. -/
def visit_assignment_target (s : VState) (t : Expr) : VState × Expr :=
  match t with
  | .ident span rid name =>
      let r := replace_class_name_with_temp_var s rid name
      (r.1, .ident span rid r.2)
  | .staticMember span obj p =>
      let r := visit_expression s obj
      (r.1, .staticMember span r.2 p)
  | .computedMember span obj idx =>
      let r1 := visit_expression s obj
      let r2 := visit_expression r1.1 idx
      (r2.1, .computedMember span r1.2 r2.2)
  | other => (s, other)

/-- Sequential visit of a list of expressions (e.g. call arguments). -/
def visit_expression_list (s : VState) (es : List Expr) : VState × List Expr :=
  match es with
  | [] => (s, [])
  | e :: rest =>
      let r := visit_expression s e
      let rr := visit_expression_list r.1 rest
      (rr.1, r.2 :: rr.2)

/-- Translation of statement visits: expression statements, block statements (default
walk enters their scope), and `TSModuleDeclaration` with a `TSModuleBlock` body (the
default walk enters the declaration's scope, then the overridden
`visit_ts_module_block` runs). -/
def visit_statement (s : VState) (st : Stmt) : VState × Stmt :=
  match st with
  | .exprStmt e =>
      let r := visit_expression s e
      (r.1, .exprStmt r.2)
  | .block scope_id body =>
      let s1 := enter_scope s scope_id
      let r := visit_statements s1 body
      (r.1, .block scope_id r.2)
  | .moduleBlock scope_id use_strict body =>
      let s1 := enter_scope s scope_id
      let parent_sloppy := s1.make_sloppy_mode
      let s2 := if s1.make_sloppy_mode && use_strict then
          { s1 with make_sloppy_mode := false } else s1
      let r :=
        if s2.walk_deep then
          let s3 := { s2 with this_depth := s2.this_depth + 1 }
          let rb := visit_statements s3 body
          ({ rb.1 with this_depth := rb.1.this_depth - 1 }, rb.2)
        else (s2, body)
      ({ r.1 with make_sloppy_mode := parent_sloppy },
       .moduleBlock scope_id use_strict r.2)

/-- Sequential visit of a list of statements. -/
def visit_statements (s : VState) (sts : List Stmt) : VState × List Stmt :=
  match sts with
  | [] => (s, [])
  | st :: rest =>
      let r := visit_statement s st
      let rr := visit_statements r.1 rest
      (rr.1, r.2 :: rr.2)

/-- Translation of `visit_property_definition` / `visit_accessor_property` (computed
key visited at the current this-depth, value at this-depth + 1) and of
`visit_static_block` (this-depth + 1; `walk_static_block` enters its scope). -/
def visit_class_element (s : VState) (el : ClassElem) : VState × ClassElem :=
  match el with
  | .propertyDef computed key value =>
      let rk := if computed then visit_expression s key else (s, key)
      let rv :=
        match value with
        | none => (rk.1, (none : Option Expr))
        | some v =>
            let s1 := { rk.1 with this_depth := rk.1.this_depth + 1 }
            let r := visit_expression s1 v
            ({ r.1 with this_depth := r.1.this_depth - 1 }, some r.2)
      (rv.1, .propertyDef computed rk.2 rv.2)
  | .accessorProp computed key value =>
      let rk := if computed then visit_expression s key else (s, key)
      let rv :=
        match value with
        | none => (rk.1, (none : Option Expr))
        | some v =>
            let s1 := { rk.1 with this_depth := rk.1.this_depth + 1 }
            let r := visit_expression s1 v
            ({ r.1 with this_depth := r.1.this_depth - 1 }, some r.2)
      (rv.1, .accessorProp computed rk.2 rv.2)
  | .staticBlock scope_id body =>
      let s1 := { s with this_depth := s.this_depth + 1 }
      let s2 := enter_scope s1 scope_id
      let r := visit_statements s2 body
      ({ r.1 with this_depth := r.1.this_depth - 1 }, .staticBlock scope_id r.2)

/-- Sequential visit of the elements of a class body. -/
def visit_class_elements (s : VState) (els : List ClassElem) : VState × List ClassElem :=
  match els with
  | [] => (s, [])
  | el :: rest =>
      let r := visit_class_element s el
      let rr := visit_class_elements r.1 rest
      (rr.1, r.2 :: rr.2)

end

/-- Translation of `StaticInitializerVisitor::new`. -/
def newVisitor (class_properties : ClassProperties) (ctx : Ctx) : VState :=
  let make_sloppy_mode := !(ctx.scope_strict ctx.current_scope_id)
  let walk_deep := make_sloppy_mode || class_properties.bindings.name.isSome
  { walk_deep := walk_deep, make_sloppy_mode := make_sloppy_mode,
    this_depth := 0, scope_depth := 0,
    class_properties := class_properties, ctx := ctx }

/-- Translation of `ClassProperties::transform_static_initializer`. -/
def transform_static_initializer (cp : ClassProperties) (ctx : Ctx) (value : Expr) :
    ClassProperties × Ctx × Expr :=
  let s := newVisitor cp ctx
  let r := visit_expression s value
  (r.1.class_properties, r.1.ctx, r.2)

/-- The class's temp binding, as currently stored (possibly not yet created). -/
def tempOf (s : VState) : Option Binding :=
  s.class_properties.bindings.static_binding

/-- The symbol id of the class's own name binding, if the class is named
(models `ClassBindings::name_symbol_id`). -/
def classNameSymId (s : VState) : Option Nat :=
  s.class_properties.bindings.name.map (fun nb => nb.symbol_id)

/-- The temp binding the next create-if-absent request would yield: the stored one if
already created, else the one that would be freshly created. -/
def currentTempBinding (s : VState) : Binding :=
  match s.class_properties.bindings.static_binding with
  | some b => b
  | none => ⟨s.ctx.next_symbol_id, s.ctx.temp_name⟩

/-- A sample host context for concrete runs: a strict-mode scope table, a class-name
symbol 0 with two resolved references 0 and 1, and fresh-id watermarks above them. -/
def sampleCtx : Ctx where
  scope_parent := fun sc => if sc = 5 then some 3 else none
  scope_strict := fun _ => true
  ref_symbol := fun r => if r = 0 then some 0 else if r = 1 then some 0 else none
  resolved_refs := fun sym => if sym = 0 then [0, 1] else []
  current_scope_id := 100
  next_symbol_id := 1
  next_reference_id := 2
  temp_name := "_C"
  super_log := []

/-- A sample class-transform state for a class named `C` (symbol 0), temp binding not
yet created. -/
def sampleCP : ClassProperties := ⟨⟨some ⟨0, "C"⟩, none⟩⟩

/-- A class with no name binding. -/
def unnamedCP : ClassProperties := ⟨⟨none, none⟩⟩

/-- The visitor state for `sampleCP` in strict surroundings (walks deep, not sloppy). -/
def sampleState : VState := newVisitor sampleCP sampleCtx

/-- The same host context with every scope sloppy. -/
def sloppyCtx : Ctx := { sampleCtx with scope_strict := fun _ => false }

/-- The visitor state in sloppy surroundings (make-sloppy and walk-deep both set). -/
def sloppyState : VState := newVisitor sampleCP sloppyCtx

/-- The visitor state for an unnamed class in strict surroundings: walk-deep is off. -/
def shallowState : VState := newVisitor unnamedCP sampleCtx

mutual

/-- All identifier-reference ids that the visitor's walk can reach inside an
expression (non-computed property keys are identifier names, not references). -/
def exprRefIds : Expr → List Nat
  | .thisE _ => []
  | .superE _ => []
  | .deleteThis _ _ => []
  | .unary _ a => exprRefIds a
  | .boolLit _ _ => []
  | .ident _ rid _ => [rid]
  | .staticMember _ o _ => exprRefIds o
  | .computedMember _ o i => exprRefIds o ++ exprRefIds i
  | .callE _ c args => exprRefIds c ++ exprListRefIds args
  | .assign _ t v => targetRefIds t ++ exprRefIds v
  | .update _ t => targetRefIds t
  | .fn _ _ b => stmtListRefIds b
  | .arrow _ _ b => stmtListRefIds b
  | .classE _ els => elemListRefIds els

/-- Reference ids reachable inside an assignment target. -/
def targetRefIds : Expr → List Nat
  | .ident _ rid _ => [rid]
  | .staticMember _ o _ => exprRefIds o
  | .computedMember _ o i => exprRefIds o ++ exprRefIds i
  | _ => []

/-- Reference ids reachable in a list of expressions. -/
def exprListRefIds : List Expr → List Nat
  | [] => []
  | e :: r => exprRefIds e ++ exprListRefIds r

/-- Reference ids reachable in a statement. -/
def stmtRefIds : Stmt → List Nat
  | .exprStmt e => exprRefIds e
  | .block _ b => stmtListRefIds b
  | .moduleBlock _ _ b => stmtListRefIds b

/-- Reference ids reachable in a list of statements. -/
def stmtListRefIds : List Stmt → List Nat
  | [] => []
  | st :: r => stmtRefIds st ++ stmtListRefIds r

/-- Reference ids reachable in a class element (computed keys only: a non-computed
key is an identifier name, not a reference, and is not visited). -/
def elemRefIds : ClassElem → List Nat
  | .propertyDef c k v =>
      (if c then exprRefIds k else []) ++
      (match v with | some e => exprRefIds e | none => [])
  | .accessorProp c k v =>
      (if c then exprRefIds k else []) ++
      (match v with | some e => exprRefIds e | none => [])
  | .staticBlock _ b => stmtListRefIds b

/-- Reference ids reachable in a list of class elements. -/
def elemListRefIds : List ClassElem → List Nat
  | [] => []
  | el :: r => elemRefIds el ++ elemListRefIds r

end


/-- Well-formedness of the symbol side of the state: each reference listed under a
symbol resolves to that symbol; ids at or above the fresh-id watermarks are unused;
and the temp binding (if created) is a different symbol from the class name. -/
structure Inv (s : VState) : Prop where
  link : ∀ sym rid, rid ∈ s.ctx.resolved_refs sym → s.ctx.ref_symbol rid = some sym
  fresh_refs : ∀ sym rid, s.ctx.next_reference_id ≤ rid → rid ∉ s.ctx.resolved_refs sym
  fresh_sym : ∀ rid, s.ctx.next_reference_id ≤ rid → s.ctx.ref_symbol rid = none
  name_lt : ∀ nb, s.class_properties.bindings.name = some nb →
      nb.symbol_id < s.ctx.next_symbol_id
  temp_ne : ∀ b nb, tempOf s = some b → s.class_properties.bindings.name = some nb →
      b.symbol_id ≠ nb.symbol_id

/-- A reference id has been fully rewritten from the class name to the temp binding:
it resolves to the temp symbol, appears exactly once in the temp symbol's reference
set, no longer appears in the class name's reference set, and is a live (allocated)
reference id. -/
def Done (s : VState) (rid : Nat) : Prop :=
  ∃ b, tempOf s = some b ∧
    s.ctx.ref_symbol rid = some b.symbol_id ∧
    (s.ctx.resolved_refs b.symbol_id).count rid = 1 ∧
    (∀ c, classNameSymId s = some c → rid ∉ s.ctx.resolved_refs c) ∧
    rid < s.ctx.next_reference_id

/-- The symbol tables, counters and class bindings coincide in two states
(used for steps that only touch scopes, depths, flags or the delegate log). -/
def SameTables (s s' : VState) : Prop :=
  s'.ctx.ref_symbol = s.ctx.ref_symbol ∧
  s'.ctx.resolved_refs = s.ctx.resolved_refs ∧
  s'.ctx.next_reference_id = s.ctx.next_reference_id ∧
  s'.ctx.next_symbol_id = s.ctx.next_symbol_id ∧
  s'.class_properties = s.class_properties

/-- How one visitor step may evolve the symbol side of the state: well-formedness is
kept, the class name binding is untouched, the temp binding only ever gets created
(never replaced), fresh-id watermarks only grow, fully-rewritten references stay
fully rewritten, and a live reference's resolution either stays put or was a
class-name reference that is now fully rewritten. -/
structure Step (s s' : VState) : Prop where
  inv : Inv s'
  name_eq : s'.class_properties.bindings.name = s.class_properties.bindings.name
  temp_mono : ∀ b, tempOf s = some b → tempOf s' = some b
  ref_mono : s.ctx.next_reference_id ≤ s'.ctx.next_reference_id
  done_mono : ∀ rid, Done s rid → Done s' rid
  stable : ∀ rid, rid < s.ctx.next_reference_id →
      s'.ctx.ref_symbol rid = s.ctx.ref_symbol rid ∨
      (∃ c, classNameSymId s = some c ∧ s.ctx.ref_symbol rid = some c ∧ Done s' rid)

/-- The contract of one visit for the class-name rewrite argument: the state evolves by
a `Step`, and (when the visitor walks deep) every reachable reference that resolved to
the class's name symbol is fully rewritten afterwards. -/
def ExprOK (e : Expr) (t : VState) : Prop :=
  Step t (visit_expression t e).1 ∧
    (t.walk_deep = true → ∀ rid, rid ∈ exprRefIds e →
      ∀ nb, t.class_properties.bindings.name = some nb →
      t.ctx.ref_symbol rid = some nb.symbol_id →
      Done (visit_expression t e).1 rid)

/-- `ExprOK` for assignment targets. -/
def TargetOK (tg : Expr) (t : VState) : Prop :=
  Step t (visit_assignment_target t tg).1 ∧
    (t.walk_deep = true → ∀ rid, rid ∈ targetRefIds tg →
      ∀ nb, t.class_properties.bindings.name = some nb →
      t.ctx.ref_symbol rid = some nb.symbol_id →
      Done (visit_assignment_target t tg).1 rid)

/-- `ExprOK` for expression lists. -/
def ExprListOK (es : List Expr) (t : VState) : Prop :=
  Step t (visit_expression_list t es).1 ∧
    (t.walk_deep = true → ∀ rid, rid ∈ exprListRefIds es →
      ∀ nb, t.class_properties.bindings.name = some nb →
      t.ctx.ref_symbol rid = some nb.symbol_id →
      Done (visit_expression_list t es).1 rid)

/-- `ExprOK` for statements. -/
def StmtOK (st : Stmt) (t : VState) : Prop :=
  Step t (visit_statement t st).1 ∧
    (t.walk_deep = true → ∀ rid, rid ∈ stmtRefIds st →
      ∀ nb, t.class_properties.bindings.name = some nb →
      t.ctx.ref_symbol rid = some nb.symbol_id →
      Done (visit_statement t st).1 rid)

/-- `ExprOK` for statement lists. -/
def StmtsOK (body : List Stmt) (t : VState) : Prop :=
  Step t (visit_statements t body).1 ∧
    (t.walk_deep = true → ∀ rid, rid ∈ stmtListRefIds body →
      ∀ nb, t.class_properties.bindings.name = some nb →
      t.ctx.ref_symbol rid = some nb.symbol_id →
      Done (visit_statements t body).1 rid)

/-- `ExprOK` for class elements. -/
def ElemOK (el : ClassElem) (t : VState) : Prop :=
  Step t (visit_class_element t el).1 ∧
    (t.walk_deep = true → ∀ rid, rid ∈ elemRefIds el →
      ∀ nb, t.class_properties.bindings.name = some nb →
      t.ctx.ref_symbol rid = some nb.symbol_id →
      Done (visit_class_element t el).1 rid)

/-- `ExprOK` for class-element lists. -/
def ElemsOK (els : List ClassElem) (t : VState) : Prop :=
  Step t (visit_class_elements t els).1 ∧
    (t.walk_deep = true → ∀ rid, rid ∈ elemListRefIds els →
      ∀ nb, t.class_properties.bindings.name = some nb →
      t.ctx.ref_symbol rid = some nb.symbol_id →
      Done (visit_class_elements t els).1 rid)

/-- The control-state and scope-side facts every visit preserves: the control fields
are restored on exit, the call-site scope and generated name are untouched, the class
name binding is untouched, the temp binding is only ever created, strict-mode flags
are never set (only cleared), are unchanged entirely when not in sloppy propagation,
and scope parents are unchanged when the visit starts at a nested scope depth. -/
structure Frame (s s' : VState) : Prop where
  walk_deep : s'.walk_deep = s.walk_deep
  this_depth : s'.this_depth = s.this_depth
  scope_depth : s'.scope_depth = s.scope_depth
  sloppy : s'.make_sloppy_mode = s.make_sloppy_mode
  cur : s'.ctx.current_scope_id = s.ctx.current_scope_id
  temp_name : s'.ctx.temp_name = s.ctx.temp_name
  name_b : s'.class_properties.bindings.name = s.class_properties.bindings.name
  temp_mono : ∀ b, tempOf s = some b → tempOf s' = some b
  strict_frame : s.make_sloppy_mode = false → s'.ctx.scope_strict = s.ctx.scope_strict
  strict_mono : ∀ sc, s.ctx.scope_strict sc = false → s'.ctx.scope_strict sc = false
  parent_frame : 0 < s.scope_depth → s'.ctx.scope_parent = s.ctx.scope_parent

section Projections

variable {cp : ClassProperties} {ctx : Ctx} {b : Binding} {s : VState}
variable {e : Expr} {span sid sc rid r sym : Nat} {name : String}

@[simp] theorem getOrInit_name :
    (getOrInitStaticBinding cp ctx).1.bindings.name = cp.bindings.name := by
  cases h : cp.bindings.static_binding <;> simp [getOrInitStaticBinding, h]

@[simp] theorem getOrInit_static :
    (getOrInitStaticBinding cp ctx).1.bindings.static_binding
      = some (getOrInitStaticBinding cp ctx).2.2 := by
  cases h : cp.bindings.static_binding <;> simp [getOrInitStaticBinding, h]

@[simp] theorem getOrInit_scope_parent :
    (getOrInitStaticBinding cp ctx).2.1.scope_parent = ctx.scope_parent := by
  cases h : cp.bindings.static_binding <;> simp [getOrInitStaticBinding, h]

@[simp] theorem getOrInit_scope_strict :
    (getOrInitStaticBinding cp ctx).2.1.scope_strict = ctx.scope_strict := by
  cases h : cp.bindings.static_binding <;> simp [getOrInitStaticBinding, h]

@[simp] theorem getOrInit_ref_symbol :
    (getOrInitStaticBinding cp ctx).2.1.ref_symbol = ctx.ref_symbol := by
  cases h : cp.bindings.static_binding <;> simp [getOrInitStaticBinding, h]

@[simp] theorem getOrInit_resolved_refs :
    (getOrInitStaticBinding cp ctx).2.1.resolved_refs = ctx.resolved_refs := by
  cases h : cp.bindings.static_binding <;> simp [getOrInitStaticBinding, h]

@[simp] theorem getOrInit_current :
    (getOrInitStaticBinding cp ctx).2.1.current_scope_id = ctx.current_scope_id := by
  cases h : cp.bindings.static_binding <;> simp [getOrInitStaticBinding, h]

@[simp] theorem getOrInit_next_ref :
    (getOrInitStaticBinding cp ctx).2.1.next_reference_id = ctx.next_reference_id := by
  cases h : cp.bindings.static_binding <;> simp [getOrInitStaticBinding, h]

@[simp] theorem getOrInit_temp_name :
    (getOrInitStaticBinding cp ctx).2.1.temp_name = ctx.temp_name := by
  cases h : cp.bindings.static_binding <;> simp [getOrInitStaticBinding, h]

@[simp] theorem getOrInit_super_log :
    (getOrInitStaticBinding cp ctx).2.1.super_log = ctx.super_log := by
  cases h : cp.bindings.static_binding <;> simp [getOrInitStaticBinding, h]

theorem getOrInit_sym_mono :
    ctx.next_symbol_id ≤ (getOrInitStaticBinding cp ctx).2.1.next_symbol_id := by
  cases h : cp.bindings.static_binding <;> simp [getOrInitStaticBinding, h]

theorem getOrInit_of_some (h : cp.bindings.static_binding = some b) :
    getOrInitStaticBinding cp ctx = (cp, ctx, b) := by
  simp [getOrInitStaticBinding, h]

theorem getOrInit_of_none (h : cp.bindings.static_binding = none) :
    getOrInitStaticBinding cp ctx =
      ({ bindings := { cp.bindings with
            static_binding := some ⟨ctx.next_symbol_id, ctx.temp_name⟩ } },
       { ctx with next_symbol_id := ctx.next_symbol_id + 1 },
       ⟨ctx.next_symbol_id, ctx.temp_name⟩) := by
  simp [getOrInitStaticBinding, h]

theorem getOrInit_binding_lt_or_eq :
    (∃ bb, cp.bindings.static_binding = some bb ∧ (getOrInitStaticBinding cp ctx).2.2 = bb) ∨
      (cp.bindings.static_binding = none ∧
        (getOrInitStaticBinding cp ctx).2.2 = ⟨ctx.next_symbol_id, ctx.temp_name⟩) := by
  cases h : cp.bindings.static_binding <;> simp [getOrInitStaticBinding, h]

@[simp] theorem csre_expr :
    (createSpannedReadExpression b span ctx).2
      = Expr.ident span ctx.next_reference_id b.name := rfl

@[simp] theorem csre_scope_parent :
    (createSpannedReadExpression b span ctx).1.scope_parent = ctx.scope_parent := rfl

@[simp] theorem csre_scope_strict :
    (createSpannedReadExpression b span ctx).1.scope_strict = ctx.scope_strict := rfl

@[simp] theorem csre_current :
    (createSpannedReadExpression b span ctx).1.current_scope_id = ctx.current_scope_id := rfl

@[simp] theorem csre_next_symbol :
    (createSpannedReadExpression b span ctx).1.next_symbol_id = ctx.next_symbol_id := rfl

@[simp] theorem csre_temp_name :
    (createSpannedReadExpression b span ctx).1.temp_name = ctx.temp_name := rfl

@[simp] theorem csre_super_log :
    (createSpannedReadExpression b span ctx).1.super_log = ctx.super_log := rfl

@[simp] theorem csre_next_ref :
    (createSpannedReadExpression b span ctx).1.next_reference_id
      = ctx.next_reference_id + 1 := rfl

@[simp] theorem csre_ref_symbol_fresh :
    (createSpannedReadExpression b span ctx).1.ref_symbol ctx.next_reference_id
      = some b.symbol_id := by
  simp [createSpannedReadExpression]

theorem csre_ref_symbol_old (h : r ≠ ctx.next_reference_id) :
    (createSpannedReadExpression b span ctx).1.ref_symbol r = ctx.ref_symbol r := by
  simp [createSpannedReadExpression, h]

@[simp] theorem csre_resolved_self :
    (createSpannedReadExpression b span ctx).1.resolved_refs b.symbol_id
      = ctx.resolved_refs b.symbol_id ++ [ctx.next_reference_id] := by
  simp [createSpannedReadExpression]

theorem csre_resolved_other (h : sym ≠ b.symbol_id) :
    (createSpannedReadExpression b span ctx).1.resolved_refs sym
      = ctx.resolved_refs sym := by
  simp [createSpannedReadExpression, h]

@[simp] theorem rtwt_walk_deep :
    (replace_this_with_temp_var s e span).1.walk_deep = s.walk_deep := by
  simp only [replace_this_with_temp_var]; split <;> simp

@[simp] theorem rtwt_this_depth :
    (replace_this_with_temp_var s e span).1.this_depth = s.this_depth := by
  simp only [replace_this_with_temp_var]; split <;> simp

@[simp] theorem rtwt_scope_depth :
    (replace_this_with_temp_var s e span).1.scope_depth = s.scope_depth := by
  simp only [replace_this_with_temp_var]; split <;> simp

@[simp] theorem rtwt_sloppy :
    (replace_this_with_temp_var s e span).1.make_sloppy_mode = s.make_sloppy_mode := by
  simp only [replace_this_with_temp_var]; split <;> simp

@[simp] theorem rtwt_scope_parent :
    (replace_this_with_temp_var s e span).1.ctx.scope_parent = s.ctx.scope_parent := by
  simp only [replace_this_with_temp_var]; split <;> simp

@[simp] theorem rtwt_scope_strict :
    (replace_this_with_temp_var s e span).1.ctx.scope_strict = s.ctx.scope_strict := by
  simp only [replace_this_with_temp_var]; split <;> simp

@[simp] theorem rtwt_current :
    (replace_this_with_temp_var s e span).1.ctx.current_scope_id
      = s.ctx.current_scope_id := by
  simp only [replace_this_with_temp_var]; split <;> simp

@[simp] theorem rtwt_temp_name :
    (replace_this_with_temp_var s e span).1.ctx.temp_name = s.ctx.temp_name := by
  simp only [replace_this_with_temp_var]; split <;> simp

@[simp] theorem rtwt_super_log :
    (replace_this_with_temp_var s e span).1.ctx.super_log = s.ctx.super_log := by
  simp only [replace_this_with_temp_var]; split <;> simp

@[simp] theorem rtwt_name :
    (replace_this_with_temp_var s e span).1.class_properties.bindings.name
      = s.class_properties.bindings.name := by
  simp only [replace_this_with_temp_var]; split <;> simp

theorem rtwt_of_ne (h : s.this_depth ≠ 0) :
    replace_this_with_temp_var s e span = (s, e) := by
  simp [replace_this_with_temp_var, h]

theorem rtwt_temp_mono (h : tempOf s = some b) :
    tempOf (replace_this_with_temp_var s e span).1 = some b := by
  have h' : s.class_properties.bindings.static_binding = some b := h
  simp only [replace_this_with_temp_var]
  split
  · simp [tempOf, @getOrInit_of_some s.class_properties s.ctx _ h', h']
  · exact h

@[simp] theorem rcnwt_walk_deep :
    (replace_class_name_with_temp_var s rid name).1.walk_deep = s.walk_deep := by
  unfold replace_class_name_with_temp_var
  split <;> [skip; split] <;> first | rfl | (split <;> simp)

@[simp] theorem rcnwt_this_depth :
    (replace_class_name_with_temp_var s rid name).1.this_depth = s.this_depth := by
  unfold replace_class_name_with_temp_var
  split <;> [skip; split] <;> first | rfl | (split <;> simp)

@[simp] theorem rcnwt_scope_depth :
    (replace_class_name_with_temp_var s rid name).1.scope_depth = s.scope_depth := by
  unfold replace_class_name_with_temp_var
  split <;> [skip; split] <;> first | rfl | (split <;> simp)

@[simp] theorem rcnwt_sloppy :
    (replace_class_name_with_temp_var s rid name).1.make_sloppy_mode
      = s.make_sloppy_mode := by
  unfold replace_class_name_with_temp_var
  split <;> [skip; split] <;> first | rfl | (split <;> simp)

@[simp] theorem rcnwt_scope_parent :
    (replace_class_name_with_temp_var s rid name).1.ctx.scope_parent
      = s.ctx.scope_parent := by
  unfold replace_class_name_with_temp_var
  split <;> [skip; split] <;> first | rfl | (split <;> simp)

@[simp] theorem rcnwt_scope_strict :
    (replace_class_name_with_temp_var s rid name).1.ctx.scope_strict
      = s.ctx.scope_strict := by
  unfold replace_class_name_with_temp_var
  split <;> [skip; split] <;> first | rfl | (split <;> simp)

@[simp] theorem rcnwt_current :
    (replace_class_name_with_temp_var s rid name).1.ctx.current_scope_id
      = s.ctx.current_scope_id := by
  unfold replace_class_name_with_temp_var
  split <;> [skip; split] <;> first | rfl | (split <;> simp)

@[simp] theorem rcnwt_temp_name :
    (replace_class_name_with_temp_var s rid name).1.ctx.temp_name
      = s.ctx.temp_name := by
  unfold replace_class_name_with_temp_var
  split <;> [skip; split] <;> first | rfl | (split <;> simp)

@[simp] theorem rcnwt_super_log :
    (replace_class_name_with_temp_var s rid name).1.ctx.super_log
      = s.ctx.super_log := by
  unfold replace_class_name_with_temp_var
  split <;> [skip; split] <;> first | rfl | (split <;> simp)

@[simp] theorem rcnwt_next_ref :
    (replace_class_name_with_temp_var s rid name).1.ctx.next_reference_id
      = s.ctx.next_reference_id := by
  unfold replace_class_name_with_temp_var
  split <;> [skip; split] <;> first | rfl | (split <;> simp)

@[simp] theorem rcnwt_name :
    (replace_class_name_with_temp_var s rid name).1.class_properties.bindings.name
      = s.class_properties.bindings.name := by
  unfold replace_class_name_with_temp_var
  split <;> [skip; split] <;> first | rfl | (split <;> simp)

theorem rcnwt_temp_mono (h : tempOf s = some b) :
    tempOf (replace_class_name_with_temp_var s rid name).1 = some b := by
  have h' : s.class_properties.bindings.static_binding = some b := h
  unfold replace_class_name_with_temp_var
  split
  · exact h
  · split
    · exact h
    · split
      · exact h
      · simp [tempOf, @getOrInit_of_some s.class_properties s.ctx _ h', h']

@[simp] theorem reparent_walk_deep :
    (reparent_scope_if_first_level s sid).walk_deep = s.walk_deep := by
  simp only [reparent_scope_if_first_level]; split <;> simp

@[simp] theorem reparent_this_depth :
    (reparent_scope_if_first_level s sid).this_depth = s.this_depth := by
  simp only [reparent_scope_if_first_level]; split <;> simp

@[simp] theorem reparent_scope_depth :
    (reparent_scope_if_first_level s sid).scope_depth = s.scope_depth := by
  simp only [reparent_scope_if_first_level]; split <;> simp

@[simp] theorem reparent_sloppy :
    (reparent_scope_if_first_level s sid).make_sloppy_mode = s.make_sloppy_mode := by
  simp only [reparent_scope_if_first_level]; split <;> simp

@[simp] theorem reparent_cp :
    (reparent_scope_if_first_level s sid).class_properties = s.class_properties := by
  simp only [reparent_scope_if_first_level]; split <;> simp

@[simp] theorem reparent_scope_strict :
    (reparent_scope_if_first_level s sid).ctx.scope_strict = s.ctx.scope_strict := by
  simp only [reparent_scope_if_first_level]; split <;> simp

@[simp] theorem reparent_ref_symbol :
    (reparent_scope_if_first_level s sid).ctx.ref_symbol = s.ctx.ref_symbol := by
  simp only [reparent_scope_if_first_level]; split <;> simp

@[simp] theorem reparent_resolved_refs :
    (reparent_scope_if_first_level s sid).ctx.resolved_refs = s.ctx.resolved_refs := by
  simp only [reparent_scope_if_first_level]; split <;> simp

@[simp] theorem reparent_current :
    (reparent_scope_if_first_level s sid).ctx.current_scope_id
      = s.ctx.current_scope_id := by
  simp only [reparent_scope_if_first_level]; split <;> simp

@[simp] theorem reparent_next_symbol :
    (reparent_scope_if_first_level s sid).ctx.next_symbol_id = s.ctx.next_symbol_id := by
  simp only [reparent_scope_if_first_level]; split <;> simp

@[simp] theorem reparent_next_ref :
    (reparent_scope_if_first_level s sid).ctx.next_reference_id
      = s.ctx.next_reference_id := by
  simp only [reparent_scope_if_first_level]; split <;> simp

@[simp] theorem reparent_temp_name :
    (reparent_scope_if_first_level s sid).ctx.temp_name = s.ctx.temp_name := by
  simp only [reparent_scope_if_first_level]; split <;> simp

@[simp] theorem reparent_super_log :
    (reparent_scope_if_first_level s sid).ctx.super_log = s.ctx.super_log := by
  simp only [reparent_scope_if_first_level]; split <;> simp

theorem reparent_of_pos (h : 0 < s.scope_depth) :
    reparent_scope_if_first_level s sid = s := by
  simp [reparent_scope_if_first_level, Nat.pos_iff_ne_zero.mp h]

theorem reparent_parent_self (h : s.scope_depth = 0) :
    (reparent_scope_if_first_level s sid).ctx.scope_parent sid
      = some s.ctx.current_scope_id := by
  simp [reparent_scope_if_first_level, h]

theorem reparent_parent_other (h : sc ≠ sid) :
    (reparent_scope_if_first_level s sid).ctx.scope_parent sc
      = s.ctx.scope_parent sc := by
  simp only [reparent_scope_if_first_level]; split <;> simp [h]

@[simp] theorem enter_scope_walk_deep :
    (enter_scope s sid).walk_deep = s.walk_deep := by
  simp only [enter_scope]; split <;> simp

@[simp] theorem enter_scope_this_depth :
    (enter_scope s sid).this_depth = s.this_depth := by
  simp only [enter_scope]; split <;> simp

@[simp] theorem enter_scope_scope_depth :
    (enter_scope s sid).scope_depth = s.scope_depth := by
  simp only [enter_scope]; split <;> simp

@[simp] theorem enter_scope_sloppy :
    (enter_scope s sid).make_sloppy_mode = s.make_sloppy_mode := by
  simp only [enter_scope]; split <;> simp

@[simp] theorem enter_scope_cp :
    (enter_scope s sid).class_properties = s.class_properties := by
  simp only [enter_scope]; split <;> simp

@[simp] theorem enter_scope_scope_parent :
    (enter_scope s sid).ctx.scope_parent = s.ctx.scope_parent := by
  simp only [enter_scope]; split <;> simp

@[simp] theorem enter_scope_ref_symbol :
    (enter_scope s sid).ctx.ref_symbol = s.ctx.ref_symbol := by
  simp only [enter_scope]; split <;> simp

@[simp] theorem enter_scope_resolved_refs :
    (enter_scope s sid).ctx.resolved_refs = s.ctx.resolved_refs := by
  simp only [enter_scope]; split <;> simp

@[simp] theorem enter_scope_current :
    (enter_scope s sid).ctx.current_scope_id = s.ctx.current_scope_id := by
  simp only [enter_scope]; split <;> simp

@[simp] theorem enter_scope_next_symbol :
    (enter_scope s sid).ctx.next_symbol_id = s.ctx.next_symbol_id := by
  simp only [enter_scope]; split <;> simp

@[simp] theorem enter_scope_next_ref :
    (enter_scope s sid).ctx.next_reference_id = s.ctx.next_reference_id := by
  simp only [enter_scope]; split <;> simp

@[simp] theorem enter_scope_temp_name :
    (enter_scope s sid).ctx.temp_name = s.ctx.temp_name := by
  simp only [enter_scope]; split <;> simp

@[simp] theorem enter_scope_super_log :
    (enter_scope s sid).ctx.super_log = s.ctx.super_log := by
  simp only [enter_scope]; split <;> simp

theorem enter_scope_of_not_sloppy (h : s.make_sloppy_mode = false) :
    enter_scope s sid = s := by
  simp [enter_scope, h]

theorem enter_scope_strict_mono (h : s.ctx.scope_strict sc = false) :
    (enter_scope s sid).ctx.scope_strict sc = false := by
  simp only [enter_scope]
  split
  · by_cases hsc : sc = sid <;> simp [hsc, h]
  · exact h

theorem enter_scope_strict_self (h : s.make_sloppy_mode = true) :
    (enter_scope s sid).ctx.scope_strict sid = false := by
  simp [enter_scope, h]

@[simp] theorem delegate_walk_deep {k : SuperKind} :
    (delegateSuper s k span).walk_deep = s.walk_deep := rfl

@[simp] theorem delegate_this_depth {k : SuperKind} :
    (delegateSuper s k span).this_depth = s.this_depth := rfl

@[simp] theorem delegate_scope_depth {k : SuperKind} :
    (delegateSuper s k span).scope_depth = s.scope_depth := rfl

@[simp] theorem delegate_sloppy {k : SuperKind} :
    (delegateSuper s k span).make_sloppy_mode = s.make_sloppy_mode := rfl

@[simp] theorem delegate_cp {k : SuperKind} :
    (delegateSuper s k span).class_properties = s.class_properties := rfl

@[simp] theorem delegate_scope_parent {k : SuperKind} :
    (delegateSuper s k span).ctx.scope_parent = s.ctx.scope_parent := rfl

@[simp] theorem delegate_scope_strict {k : SuperKind} :
    (delegateSuper s k span).ctx.scope_strict = s.ctx.scope_strict := rfl

@[simp] theorem delegate_ref_symbol {k : SuperKind} :
    (delegateSuper s k span).ctx.ref_symbol = s.ctx.ref_symbol := rfl

@[simp] theorem delegate_resolved_refs {k : SuperKind} :
    (delegateSuper s k span).ctx.resolved_refs = s.ctx.resolved_refs := rfl

@[simp] theorem delegate_current {k : SuperKind} :
    (delegateSuper s k span).ctx.current_scope_id = s.ctx.current_scope_id := rfl

@[simp] theorem delegate_next_symbol {k : SuperKind} :
    (delegateSuper s k span).ctx.next_symbol_id = s.ctx.next_symbol_id := rfl

@[simp] theorem delegate_next_ref {k : SuperKind} :
    (delegateSuper s k span).ctx.next_reference_id = s.ctx.next_reference_id := rfl

@[simp] theorem delegate_temp_name {k : SuperKind} :
    (delegateSuper s k span).ctx.temp_name = s.ctx.temp_name := rfl

@[simp] theorem delegate_super_log {k : SuperKind} :
    (delegateSuper s k span).ctx.super_log = s.ctx.super_log ++ [(k, span)] := rfl

theorem tsme_eq :
    transform_static_member_expression_if_super s span
      = if s.this_depth = 0 then delegateSuper s .staticMember span else s := rfl

theorem tcme_eq :
    transform_computed_member_expression_if_super s span
      = if s.this_depth = 0 then delegateSuper s .computedMember span else s := rfl

theorem tce_eq :
    transform_call_expression_if_super_member_expression s span
      = if s.this_depth = 0 then delegateSuper s .callMember span else s := rfl

theorem tae_eq :
    transform_assignment_expression_if_super s span
      = if s.this_depth = 0 then delegateSuper s .assignTarget span else s := rfl

theorem tue_eq :
    transform_update_expression_if_super s span
      = if s.this_depth = 0 then delegateSuper s .updateTarget span else s := rfl

end Projections

section FrameLemmas

variable {s s1 s2 s3 : VState} {e : Expr} {span sid rid : Nat} {name : String}

theorem Frame.refl (s : VState) : Frame s s :=
  ⟨rfl, rfl, rfl, rfl, rfl, rfl, rfl, fun _ h => h, fun _ => rfl, fun _ h => h, fun _ => rfl⟩

theorem frame_trans (f : Frame s1 s2) (g : Frame s2 s3) : Frame s1 s3 where
  walk_deep := g.walk_deep.trans f.walk_deep
  this_depth := g.this_depth.trans f.this_depth
  scope_depth := g.scope_depth.trans f.scope_depth
  sloppy := g.sloppy.trans f.sloppy
  cur := g.cur.trans f.cur
  temp_name := g.temp_name.trans f.temp_name
  name_b := g.name_b.trans f.name_b
  temp_mono := fun b hb => g.temp_mono b (f.temp_mono b hb)
  strict_frame := fun h =>
    (g.strict_frame (f.sloppy.trans h)).trans (f.strict_frame h)
  strict_mono := fun sc h => g.strict_mono sc (f.strict_mono sc h)
  parent_frame := fun h =>
    (g.parent_frame (f.scope_depth ▸ h)).trans (f.parent_frame h)

theorem frame_enter_scope : Frame s (enter_scope s sid) where
  walk_deep := by simp
  this_depth := by simp
  scope_depth := by simp
  sloppy := by simp
  cur := by simp
  temp_name := by simp
  name_b := by simp
  temp_mono := fun b hb => by simpa [tempOf] using hb
  strict_frame := fun h => by rw [enter_scope_of_not_sloppy h]
  strict_mono := fun sc h => enter_scope_strict_mono h
  parent_frame := fun _ => by simp

theorem frame_reparent : Frame s (reparent_scope_if_first_level s sid) where
  walk_deep := by simp
  this_depth := by simp
  scope_depth := by simp
  sloppy := by simp
  cur := by simp
  temp_name := by simp
  name_b := by simp
  temp_mono := fun b hb => by simpa [tempOf] using hb
  strict_frame := fun _ => by simp
  strict_mono := fun sc h => by simpa using h
  parent_frame := fun h => by rw [reparent_of_pos h]

theorem frame_delegate {k : SuperKind} : Frame s (delegateSuper s k span) where
  walk_deep := rfl
  this_depth := rfl
  scope_depth := rfl
  sloppy := rfl
  cur := rfl
  temp_name := rfl
  name_b := rfl
  temp_mono := fun _ hb => hb
  strict_frame := fun _ => rfl
  strict_mono := fun _ h => h
  parent_frame := fun _ => rfl

theorem frame_tsme : Frame s (transform_static_member_expression_if_super s span) := by
  rw [tsme_eq]; split
  · exact frame_delegate
  · exact Frame.refl s

theorem frame_tcme : Frame s (transform_computed_member_expression_if_super s span) := by
  rw [tcme_eq]; split
  · exact frame_delegate
  · exact Frame.refl s

theorem frame_tce : Frame s (transform_call_expression_if_super_member_expression s span) := by
  rw [tce_eq]; split
  · exact frame_delegate
  · exact Frame.refl s

theorem frame_tae : Frame s (transform_assignment_expression_if_super s span) := by
  rw [tae_eq]; split
  · exact frame_delegate
  · exact Frame.refl s

theorem frame_tue : Frame s (transform_update_expression_if_super s span) := by
  rw [tue_eq]; split
  · exact frame_delegate
  · exact Frame.refl s

theorem frame_rtwt : Frame s (replace_this_with_temp_var s e span).1 where
  walk_deep := by simp
  this_depth := by simp
  scope_depth := by simp
  sloppy := by simp
  cur := by simp
  temp_name := by simp
  name_b := by simp
  temp_mono := fun b hb => rtwt_temp_mono hb
  strict_frame := fun _ => by simp
  strict_mono := fun sc h => by simpa using h
  parent_frame := fun _ => by simp

theorem frame_rcnwt : Frame s (replace_class_name_with_temp_var s rid name).1 where
  walk_deep := by simp
  this_depth := by simp
  scope_depth := by simp
  sloppy := by simp
  cur := by simp
  temp_name := by simp
  name_b := by simp
  temp_mono := fun b hb => rcnwt_temp_mono hb
  strict_frame := fun _ => by simp
  strict_mono := fun sc h => by simpa using h
  parent_frame := fun _ => by simp

theorem frame_rdt : Frame s (replace_delete_this_with_true s e span).1 := by
  unfold replace_delete_this_with_true
  split <;> exact Frame.refl s

end FrameLemmas

section FrameCore

theorem enter_scope_strict_of_not_sloppy {s : VState} {sid : Nat}
    (h : s.make_sloppy_mode = false) :
    (enter_scope s sid).ctx.scope_strict = s.ctx.scope_strict := by
  rw [enter_scope_of_not_sloppy h]

theorem frame_fn_core (sid : Nat) (us : Bool) (body : List Stmt)
    (IH : ∀ t, Frame t (visit_statements t body).1) (s : VState) :
    Frame s (visit_expression s (.fn sid us body)).1 := by
  have h1 : ∀ t, (visit_statements t body).1.walk_deep = t.walk_deep :=
    fun t => (IH t).walk_deep
  have h2 : ∀ t, (visit_statements t body).1.this_depth = t.this_depth :=
    fun t => (IH t).this_depth
  have h3 : ∀ t, (visit_statements t body).1.scope_depth = t.scope_depth :=
    fun t => (IH t).scope_depth
  have h4 : ∀ t, (visit_statements t body).1.make_sloppy_mode = t.make_sloppy_mode :=
    fun t => (IH t).sloppy
  have h5 : ∀ t, (visit_statements t body).1.ctx.current_scope_id = t.ctx.current_scope_id :=
    fun t => (IH t).cur
  have h6 : ∀ t, (visit_statements t body).1.ctx.temp_name = t.ctx.temp_name :=
    fun t => (IH t).temp_name
  have h7 : ∀ t, (visit_statements t body).1.class_properties.bindings.name
      = t.class_properties.bindings.name := fun t => (IH t).name_b
  have h8 : ∀ t, t.make_sloppy_mode = false →
      (visit_statements t body).1.ctx.scope_strict = t.ctx.scope_strict :=
    fun t => (IH t).strict_frame
  have h9 : ∀ t sc, t.ctx.scope_strict sc = false →
      (visit_statements t body).1.ctx.scope_strict sc = false :=
    fun t sc => (IH t).strict_mono sc
  have h10 : ∀ t b, t.class_properties.bindings.static_binding = some b →
      (visit_statements t body).1.class_properties.bindings.static_binding = some b :=
    fun t b hb => (IH t).temp_mono b hb
  have h11 : ∀ t, 0 < t.scope_depth →
      (visit_statements t body).1.ctx.scope_parent = t.ctx.scope_parent :=
    fun t => (IH t).parent_frame
  refine ⟨?_, ?_, ?_, ?_, ?_, ?_, ?_, ?_, ?_, ?_, ?_⟩
  · simp only [visit_expression]; all_goals ((try split_ifs) <;> simp [h1])
  · simp only [visit_expression]; all_goals ((try split_ifs) <;> simp [h2])
  · simp only [visit_expression]; all_goals ((try split_ifs) <;> simp [h3])
  · simp only [visit_expression]; all_goals ((try split_ifs) <;> simp [h4])
  · simp only [visit_expression]; all_goals ((try split_ifs) <;> simp [h5])
  · simp only [visit_expression]; all_goals ((try split_ifs) <;> simp [h6])
  · simp only [visit_expression]; all_goals ((try split_ifs) <;> simp [h7])
  · intro b hb
    simp only [visit_expression]
    simp only [tempOf] at hb
    all_goals ((try split_ifs) <;> simp [tempOf, h10, hb])
  · intro h
    have hc : (s.make_sloppy_mode && us) = false := by simp [h]
    simp only [visit_expression, hc]
    all_goals ((try split_ifs) <;> simp [h8, h, enter_scope_strict_of_not_sloppy])
  · intro sc h
    simp only [visit_expression]
    all_goals ((try split_ifs) <;> simp [h9, h, enter_scope_strict_mono])
  · intro h
    simp only [visit_expression]
    all_goals ((try split_ifs) <;> rw [reparent_of_pos (by simpa using h)] <;> simp [h11])

theorem frame_arrow_core (sid : Nat) (us : Bool) (body : List Stmt)
    (IH : ∀ t, Frame t (visit_statements t body).1) (s : VState) :
    Frame s (visit_expression s (.arrow sid us body)).1 := by
  have h1 : ∀ t, (visit_statements t body).1.walk_deep = t.walk_deep :=
    fun t => (IH t).walk_deep
  have h2 : ∀ t, (visit_statements t body).1.this_depth = t.this_depth :=
    fun t => (IH t).this_depth
  have h3 : ∀ t, (visit_statements t body).1.scope_depth = t.scope_depth :=
    fun t => (IH t).scope_depth
  have h4 : ∀ t, (visit_statements t body).1.make_sloppy_mode = t.make_sloppy_mode :=
    fun t => (IH t).sloppy
  have h5 : ∀ t, (visit_statements t body).1.ctx.current_scope_id = t.ctx.current_scope_id :=
    fun t => (IH t).cur
  have h6 : ∀ t, (visit_statements t body).1.ctx.temp_name = t.ctx.temp_name :=
    fun t => (IH t).temp_name
  have h7 : ∀ t, (visit_statements t body).1.class_properties.bindings.name
      = t.class_properties.bindings.name := fun t => (IH t).name_b
  have h8 : ∀ t, t.make_sloppy_mode = false →
      (visit_statements t body).1.ctx.scope_strict = t.ctx.scope_strict :=
    fun t => (IH t).strict_frame
  have h9 : ∀ t sc, t.ctx.scope_strict sc = false →
      (visit_statements t body).1.ctx.scope_strict sc = false :=
    fun t sc => (IH t).strict_mono sc
  have h10 : ∀ t b, t.class_properties.bindings.static_binding = some b →
      (visit_statements t body).1.class_properties.bindings.static_binding = some b :=
    fun t b hb => (IH t).temp_mono b hb
  have h11 : ∀ t, 0 < t.scope_depth →
      (visit_statements t body).1.ctx.scope_parent = t.ctx.scope_parent :=
    fun t => (IH t).parent_frame
  refine ⟨?_, ?_, ?_, ?_, ?_, ?_, ?_, ?_, ?_, ?_, ?_⟩
  · simp only [visit_expression]; all_goals ((try split_ifs) <;> simp [h1])
  · simp only [visit_expression]; all_goals ((try split_ifs) <;> simp [h2])
  · simp only [visit_expression]; all_goals ((try split_ifs) <;> simp [h3])
  · simp only [visit_expression]; all_goals ((try split_ifs) <;> simp [h4])
  · simp only [visit_expression]; all_goals ((try split_ifs) <;> simp [h5])
  · simp only [visit_expression]; all_goals ((try split_ifs) <;> simp [h6])
  · simp only [visit_expression]; all_goals ((try split_ifs) <;> simp [h7])
  · intro b hb
    simp only [visit_expression]
    simp only [tempOf] at hb
    all_goals ((try split_ifs) <;> simp [tempOf, h10, hb])
  · intro h
    have hc : (s.make_sloppy_mode && us) = false := by simp [h]
    simp only [visit_expression, hc]
    all_goals ((try split_ifs) <;> simp [h8, h, enter_scope_strict_of_not_sloppy])
  · intro sc h
    simp only [visit_expression]
    all_goals ((try split_ifs) <;> simp [h9, h, enter_scope_strict_mono])
  · intro h
    simp only [visit_expression]
    all_goals ((try split_ifs) <;> rw [reparent_of_pos (by simpa using h)] <;> simp [h11])

theorem frame_class_core (sid : Nat) (els : List ClassElem)
    (IH : ∀ t, Frame t (visit_class_elements t els).1) (s : VState) :
    Frame s (visit_expression s (.classE sid els)).1 := by
  have h1 : ∀ t, (visit_class_elements t els).1.walk_deep = t.walk_deep :=
    fun t => (IH t).walk_deep
  have h2 : ∀ t, (visit_class_elements t els).1.this_depth = t.this_depth :=
    fun t => (IH t).this_depth
  have h3 : ∀ t, (visit_class_elements t els).1.scope_depth = t.scope_depth :=
    fun t => (IH t).scope_depth
  have h4 : ∀ t, (visit_class_elements t els).1.make_sloppy_mode = t.make_sloppy_mode :=
    fun t => (IH t).sloppy
  have h5 : ∀ t, (visit_class_elements t els).1.ctx.current_scope_id = t.ctx.current_scope_id :=
    fun t => (IH t).cur
  have h6 : ∀ t, (visit_class_elements t els).1.ctx.temp_name = t.ctx.temp_name :=
    fun t => (IH t).temp_name
  have h7 : ∀ t, (visit_class_elements t els).1.class_properties.bindings.name
      = t.class_properties.bindings.name := fun t => (IH t).name_b
  have h8 : ∀ t, t.make_sloppy_mode = false →
      (visit_class_elements t els).1.ctx.scope_strict = t.ctx.scope_strict :=
    fun t => (IH t).strict_frame
  have h9 : ∀ t sc, t.ctx.scope_strict sc = false →
      (visit_class_elements t els).1.ctx.scope_strict sc = false :=
    fun t sc => (IH t).strict_mono sc
  have h10 : ∀ t b, t.class_properties.bindings.static_binding = some b →
      (visit_class_elements t els).1.class_properties.bindings.static_binding = some b :=
    fun t b hb => (IH t).temp_mono b hb
  have h11 : ∀ t, 0 < t.scope_depth →
      (visit_class_elements t els).1.ctx.scope_parent = t.ctx.scope_parent :=
    fun t => (IH t).parent_frame
  refine ⟨?_, ?_, ?_, ?_, ?_, ?_, ?_, ?_, ?_, ?_, ?_⟩
  · simp only [visit_expression]; all_goals ((try split_ifs) <;> simp [h1])
  · simp only [visit_expression]; all_goals ((try split_ifs) <;> simp [h2])
  · simp only [visit_expression]; all_goals ((try split_ifs) <;> simp [h3])
  · simp only [visit_expression]; all_goals ((try split_ifs) <;> simp [h4])
  · simp only [visit_expression]; all_goals ((try split_ifs) <;> simp [h5])
  · simp only [visit_expression]; all_goals ((try split_ifs) <;> simp [h6])
  · simp only [visit_expression]; all_goals ((try split_ifs) <;> simp [h7])
  · intro b hb
    simp only [visit_expression]
    simp only [tempOf] at hb
    all_goals ((try split_ifs) <;> simp [tempOf, h10, hb])
  · intro h
    simp only [visit_expression]
    all_goals ((try split_ifs) <;> simp [h8, enter_scope_strict_of_not_sloppy])
  · intro sc h
    simp only [visit_expression]
    all_goals ((try split_ifs) <;> simp [h9, h, enter_scope_strict_mono])
  · intro h
    simp only [visit_expression]
    all_goals ((try split_ifs) <;> rw [reparent_of_pos (by simpa using h)] <;> simp [h11])

theorem frame_block_core (sid : Nat) (body : List Stmt)
    (IH : ∀ t, Frame t (visit_statements t body).1) (s : VState) :
    Frame s (visit_statement s (.block sid body)).1 := by
  have h1 : ∀ t, (visit_statements t body).1.walk_deep = t.walk_deep :=
    fun t => (IH t).walk_deep
  have h2 : ∀ t, (visit_statements t body).1.this_depth = t.this_depth :=
    fun t => (IH t).this_depth
  have h3 : ∀ t, (visit_statements t body).1.scope_depth = t.scope_depth :=
    fun t => (IH t).scope_depth
  have h4 : ∀ t, (visit_statements t body).1.make_sloppy_mode = t.make_sloppy_mode :=
    fun t => (IH t).sloppy
  have h5 : ∀ t, (visit_statements t body).1.ctx.current_scope_id = t.ctx.current_scope_id :=
    fun t => (IH t).cur
  have h6 : ∀ t, (visit_statements t body).1.ctx.temp_name = t.ctx.temp_name :=
    fun t => (IH t).temp_name
  have h7 : ∀ t, (visit_statements t body).1.class_properties.bindings.name
      = t.class_properties.bindings.name := fun t => (IH t).name_b
  have h8 : ∀ t, t.make_sloppy_mode = false →
      (visit_statements t body).1.ctx.scope_strict = t.ctx.scope_strict :=
    fun t => (IH t).strict_frame
  have h9 : ∀ t sc, t.ctx.scope_strict sc = false →
      (visit_statements t body).1.ctx.scope_strict sc = false :=
    fun t sc => (IH t).strict_mono sc
  have h10 : ∀ t b, t.class_properties.bindings.static_binding = some b →
      (visit_statements t body).1.class_properties.bindings.static_binding = some b :=
    fun t b hb => (IH t).temp_mono b hb
  have h11 : ∀ t, 0 < t.scope_depth →
      (visit_statements t body).1.ctx.scope_parent = t.ctx.scope_parent :=
    fun t => (IH t).parent_frame
  refine ⟨?_, ?_, ?_, ?_, ?_, ?_, ?_, ?_, ?_, ?_, ?_⟩
  · simp only [visit_statement]; simp [h1]
  · simp only [visit_statement]; simp [h2]
  · simp only [visit_statement]; simp [h3]
  · simp only [visit_statement]; simp [h4]
  · simp only [visit_statement]; simp [h5]
  · simp only [visit_statement]; simp [h6]
  · simp only [visit_statement]; simp [h7]
  · intro b hb
    simp only [visit_statement]
    simp only [tempOf] at hb
    simp [tempOf, h10, hb]
  · intro h
    simp only [visit_statement]
    simp [h8, h, enter_scope_strict_of_not_sloppy]
  · intro sc h
    simp only [visit_statement]
    simp [h9, h, enter_scope_strict_mono]
  · intro h
    simp only [visit_statement]
    simp [h11, h]

theorem frame_module_core (sid : Nat) (us : Bool) (body : List Stmt)
    (IH : ∀ t, Frame t (visit_statements t body).1) (s : VState) :
    Frame s (visit_statement s (.moduleBlock sid us body)).1 := by
  have h1 : ∀ t, (visit_statements t body).1.walk_deep = t.walk_deep :=
    fun t => (IH t).walk_deep
  have h2 : ∀ t, (visit_statements t body).1.this_depth = t.this_depth :=
    fun t => (IH t).this_depth
  have h3 : ∀ t, (visit_statements t body).1.scope_depth = t.scope_depth :=
    fun t => (IH t).scope_depth
  have h4 : ∀ t, (visit_statements t body).1.make_sloppy_mode = t.make_sloppy_mode :=
    fun t => (IH t).sloppy
  have h5 : ∀ t, (visit_statements t body).1.ctx.current_scope_id = t.ctx.current_scope_id :=
    fun t => (IH t).cur
  have h6 : ∀ t, (visit_statements t body).1.ctx.temp_name = t.ctx.temp_name :=
    fun t => (IH t).temp_name
  have h7 : ∀ t, (visit_statements t body).1.class_properties.bindings.name
      = t.class_properties.bindings.name := fun t => (IH t).name_b
  have h8 : ∀ t, t.make_sloppy_mode = false →
      (visit_statements t body).1.ctx.scope_strict = t.ctx.scope_strict :=
    fun t => (IH t).strict_frame
  have h9 : ∀ t sc, t.ctx.scope_strict sc = false →
      (visit_statements t body).1.ctx.scope_strict sc = false :=
    fun t sc => (IH t).strict_mono sc
  have h10 : ∀ t b, t.class_properties.bindings.static_binding = some b →
      (visit_statements t body).1.class_properties.bindings.static_binding = some b :=
    fun t b hb => (IH t).temp_mono b hb
  have h11 : ∀ t, 0 < t.scope_depth →
      (visit_statements t body).1.ctx.scope_parent = t.ctx.scope_parent :=
    fun t => (IH t).parent_frame
  refine ⟨?_, ?_, ?_, ?_, ?_, ?_, ?_, ?_, ?_, ?_, ?_⟩
  · simp only [visit_statement]; all_goals ((try split_ifs) <;> simp [h1])
  · simp only [visit_statement]; all_goals ((try split_ifs) <;> simp [h2])
  · simp only [visit_statement]; all_goals ((try split_ifs) <;> simp [h3])
  · simp only [visit_statement]; all_goals ((try split_ifs) <;> simp [h4])
  · simp only [visit_statement]; all_goals ((try split_ifs) <;> simp [h5])
  · simp only [visit_statement]; all_goals ((try split_ifs) <;> simp [h6])
  · simp only [visit_statement]; all_goals ((try split_ifs) <;> simp [h7])
  · intro b hb
    simp only [visit_statement]
    simp only [tempOf] at hb
    all_goals ((try split_ifs) <;> simp [tempOf, h10, hb])
  · intro h
    simp only [visit_statement]
    rw [enter_scope_of_not_sloppy h]
    all_goals ((try split_ifs) <;> simp [h8, h])
  · intro sc h
    simp only [visit_statement]
    all_goals ((try split_ifs) <;> simp [h9, h, enter_scope_strict_mono])
  · intro h
    simp only [visit_statement]
    all_goals ((try split_ifs) <;> simp [h11, h])

theorem frame_static_block_core (sid : Nat) (body : List Stmt)
    (IH : ∀ t, Frame t (visit_statements t body).1) (s : VState) :
    Frame s (visit_class_element s (.staticBlock sid body)).1 := by
  have h1 : ∀ t, (visit_statements t body).1.walk_deep = t.walk_deep :=
    fun t => (IH t).walk_deep
  have h2 : ∀ t, (visit_statements t body).1.this_depth = t.this_depth :=
    fun t => (IH t).this_depth
  have h3 : ∀ t, (visit_statements t body).1.scope_depth = t.scope_depth :=
    fun t => (IH t).scope_depth
  have h4 : ∀ t, (visit_statements t body).1.make_sloppy_mode = t.make_sloppy_mode :=
    fun t => (IH t).sloppy
  have h5 : ∀ t, (visit_statements t body).1.ctx.current_scope_id = t.ctx.current_scope_id :=
    fun t => (IH t).cur
  have h6 : ∀ t, (visit_statements t body).1.ctx.temp_name = t.ctx.temp_name :=
    fun t => (IH t).temp_name
  have h7 : ∀ t, (visit_statements t body).1.class_properties.bindings.name
      = t.class_properties.bindings.name := fun t => (IH t).name_b
  have h8 : ∀ t, t.make_sloppy_mode = false →
      (visit_statements t body).1.ctx.scope_strict = t.ctx.scope_strict :=
    fun t => (IH t).strict_frame
  have h9 : ∀ t sc, t.ctx.scope_strict sc = false →
      (visit_statements t body).1.ctx.scope_strict sc = false :=
    fun t sc => (IH t).strict_mono sc
  have h10 : ∀ t b, t.class_properties.bindings.static_binding = some b →
      (visit_statements t body).1.class_properties.bindings.static_binding = some b :=
    fun t b hb => (IH t).temp_mono b hb
  have h11 : ∀ t, 0 < t.scope_depth →
      (visit_statements t body).1.ctx.scope_parent = t.ctx.scope_parent :=
    fun t => (IH t).parent_frame
  refine ⟨?_, ?_, ?_, ?_, ?_, ?_, ?_, ?_, ?_, ?_, ?_⟩
  · simp only [visit_class_element]; simp [h1]
  · simp only [visit_class_element]; simp [h2]
  · simp only [visit_class_element]; simp [h3]
  · simp only [visit_class_element]; simp [h4]
  · simp only [visit_class_element]; simp [h5]
  · simp only [visit_class_element]; simp [h6]
  · simp only [visit_class_element]; simp [h7]
  · intro b hb
    simp only [visit_class_element]
    simp only [tempOf] at hb
    simp [tempOf, h10, hb]
  · intro h
    simp only [visit_class_element]
    simp [h8, h, enter_scope_strict_of_not_sloppy]
  · intro sc h
    simp only [visit_class_element]
    simp [h9, h, enter_scope_strict_mono]
  · intro h
    simp only [visit_class_element]
    simp [h11, h]

end FrameCore

section FramePropCore

theorem frame_prop_some_core (c : Bool) (k vv : Expr)
    (IHa : ∀ t, Frame t (visit_expression t k).1)
    (IHb : ∀ t, Frame t (visit_expression t vv).1) (s : VState) :
    Frame s (visit_class_element s (.propertyDef c k (some vv))).1 := by
  have a1 : ∀ t, (visit_expression t k).1.walk_deep = t.walk_deep :=
    fun t => (IHa t).walk_deep
  have a2 : ∀ t, (visit_expression t k).1.this_depth = t.this_depth :=
    fun t => (IHa t).this_depth
  have a3 : ∀ t, (visit_expression t k).1.scope_depth = t.scope_depth :=
    fun t => (IHa t).scope_depth
  have a4 : ∀ t, (visit_expression t k).1.make_sloppy_mode = t.make_sloppy_mode :=
    fun t => (IHa t).sloppy
  have a5 : ∀ t, (visit_expression t k).1.ctx.current_scope_id = t.ctx.current_scope_id :=
    fun t => (IHa t).cur
  have a6 : ∀ t, (visit_expression t k).1.ctx.temp_name = t.ctx.temp_name :=
    fun t => (IHa t).temp_name
  have a7 : ∀ t, (visit_expression t k).1.class_properties.bindings.name
      = t.class_properties.bindings.name := fun t => (IHa t).name_b
  have a8 : ∀ t, t.make_sloppy_mode = false →
      (visit_expression t k).1.ctx.scope_strict = t.ctx.scope_strict :=
    fun t => (IHa t).strict_frame
  have a9 : ∀ t sc, t.ctx.scope_strict sc = false →
      (visit_expression t k).1.ctx.scope_strict sc = false :=
    fun t sc => (IHa t).strict_mono sc
  have a10 : ∀ t b, t.class_properties.bindings.static_binding = some b →
      (visit_expression t k).1.class_properties.bindings.static_binding = some b :=
    fun t b hb => (IHa t).temp_mono b hb
  have a11 : ∀ t, 0 < t.scope_depth →
      (visit_expression t k).1.ctx.scope_parent = t.ctx.scope_parent :=
    fun t => (IHa t).parent_frame
  have b1 : ∀ t, (visit_expression t vv).1.walk_deep = t.walk_deep :=
    fun t => (IHb t).walk_deep
  have b2 : ∀ t, (visit_expression t vv).1.this_depth = t.this_depth :=
    fun t => (IHb t).this_depth
  have b3 : ∀ t, (visit_expression t vv).1.scope_depth = t.scope_depth :=
    fun t => (IHb t).scope_depth
  have b4 : ∀ t, (visit_expression t vv).1.make_sloppy_mode = t.make_sloppy_mode :=
    fun t => (IHb t).sloppy
  have b5 : ∀ t, (visit_expression t vv).1.ctx.current_scope_id = t.ctx.current_scope_id :=
    fun t => (IHb t).cur
  have b6 : ∀ t, (visit_expression t vv).1.ctx.temp_name = t.ctx.temp_name :=
    fun t => (IHb t).temp_name
  have b7 : ∀ t, (visit_expression t vv).1.class_properties.bindings.name
      = t.class_properties.bindings.name := fun t => (IHb t).name_b
  have b8 : ∀ t, t.make_sloppy_mode = false →
      (visit_expression t vv).1.ctx.scope_strict = t.ctx.scope_strict :=
    fun t => (IHb t).strict_frame
  have b9 : ∀ t sc, t.ctx.scope_strict sc = false →
      (visit_expression t vv).1.ctx.scope_strict sc = false :=
    fun t sc => (IHb t).strict_mono sc
  have b10 : ∀ t b, t.class_properties.bindings.static_binding = some b →
      (visit_expression t vv).1.class_properties.bindings.static_binding = some b :=
    fun t b hb => (IHb t).temp_mono b hb
  have b11 : ∀ t, 0 < t.scope_depth →
      (visit_expression t vv).1.ctx.scope_parent = t.ctx.scope_parent :=
    fun t => (IHb t).parent_frame
  refine ⟨?_, ?_, ?_, ?_, ?_, ?_, ?_, ?_, ?_, ?_, ?_⟩
  · simp only [visit_class_element]; all_goals ((try split_ifs) <;> simp [a1, b1])
  · simp only [visit_class_element]; all_goals ((try split_ifs) <;> simp [a2, b2])
  · simp only [visit_class_element]; all_goals ((try split_ifs) <;> simp [a3, b3])
  · simp only [visit_class_element]; all_goals ((try split_ifs) <;> simp [a4, b4])
  · simp only [visit_class_element]; all_goals ((try split_ifs) <;> simp [a5, b5])
  · simp only [visit_class_element]; all_goals ((try split_ifs) <;> simp [a6, b6])
  · simp only [visit_class_element]; all_goals ((try split_ifs) <;> simp [a7, b7])
  · intro b hb
    simp only [visit_class_element]
    simp only [tempOf] at hb
    all_goals ((try split_ifs) <;> simp [tempOf, a10, b10, hb])
  · intro h
    simp only [visit_class_element]
    all_goals ((try split_ifs) <;> simp [a4, a8, b8, h])
  · intro sc h
    simp only [visit_class_element]
    all_goals ((try split_ifs) <;> simp [a9, b9, h])
  · intro h
    simp only [visit_class_element]
    all_goals ((try split_ifs) <;> simp [a3, a11, b11, h])

theorem frame_prop_none_core (c : Bool) (k : Expr)
    (IHa : ∀ t, Frame t (visit_expression t k).1) (s : VState) :
    Frame s (visit_class_element s (.propertyDef c k none)).1 := by
  have a1 : ∀ t, (visit_expression t k).1.walk_deep = t.walk_deep :=
    fun t => (IHa t).walk_deep
  have a2 : ∀ t, (visit_expression t k).1.this_depth = t.this_depth :=
    fun t => (IHa t).this_depth
  have a3 : ∀ t, (visit_expression t k).1.scope_depth = t.scope_depth :=
    fun t => (IHa t).scope_depth
  have a4 : ∀ t, (visit_expression t k).1.make_sloppy_mode = t.make_sloppy_mode :=
    fun t => (IHa t).sloppy
  have a5 : ∀ t, (visit_expression t k).1.ctx.current_scope_id = t.ctx.current_scope_id :=
    fun t => (IHa t).cur
  have a6 : ∀ t, (visit_expression t k).1.ctx.temp_name = t.ctx.temp_name :=
    fun t => (IHa t).temp_name
  have a7 : ∀ t, (visit_expression t k).1.class_properties.bindings.name
      = t.class_properties.bindings.name := fun t => (IHa t).name_b
  have a8 : ∀ t, t.make_sloppy_mode = false →
      (visit_expression t k).1.ctx.scope_strict = t.ctx.scope_strict :=
    fun t => (IHa t).strict_frame
  have a9 : ∀ t sc, t.ctx.scope_strict sc = false →
      (visit_expression t k).1.ctx.scope_strict sc = false :=
    fun t sc => (IHa t).strict_mono sc
  have a10 : ∀ t b, t.class_properties.bindings.static_binding = some b →
      (visit_expression t k).1.class_properties.bindings.static_binding = some b :=
    fun t b hb => (IHa t).temp_mono b hb
  have a11 : ∀ t, 0 < t.scope_depth →
      (visit_expression t k).1.ctx.scope_parent = t.ctx.scope_parent :=
    fun t => (IHa t).parent_frame
  refine ⟨?_, ?_, ?_, ?_, ?_, ?_, ?_, ?_, ?_, ?_, ?_⟩
  · simp only [visit_class_element]; all_goals ((try split_ifs) <;> simp [a1])
  · simp only [visit_class_element]; all_goals ((try split_ifs) <;> simp [a2])
  · simp only [visit_class_element]; all_goals ((try split_ifs) <;> simp [a3])
  · simp only [visit_class_element]; all_goals ((try split_ifs) <;> simp [a4])
  · simp only [visit_class_element]; all_goals ((try split_ifs) <;> simp [a5])
  · simp only [visit_class_element]; all_goals ((try split_ifs) <;> simp [a6])
  · simp only [visit_class_element]; all_goals ((try split_ifs) <;> simp [a7])
  · intro b hb
    simp only [visit_class_element]
    simp only [tempOf] at hb
    all_goals ((try split_ifs) <;> simp [tempOf, a10, hb])
  · intro h
    simp only [visit_class_element]
    all_goals ((try split_ifs) <;> simp [a8, h])
  · intro sc h
    simp only [visit_class_element]
    all_goals ((try split_ifs) <;> simp [a9, h])
  · intro h
    simp only [visit_class_element]
    all_goals ((try split_ifs) <;> simp [a11, h])

theorem frame_acc_some_core (c : Bool) (k vv : Expr)
    (IHa : ∀ t, Frame t (visit_expression t k).1)
    (IHb : ∀ t, Frame t (visit_expression t vv).1) (s : VState) :
    Frame s (visit_class_element s (.accessorProp c k (some vv))).1 := by
  have a1 : ∀ t, (visit_expression t k).1.walk_deep = t.walk_deep :=
    fun t => (IHa t).walk_deep
  have a2 : ∀ t, (visit_expression t k).1.this_depth = t.this_depth :=
    fun t => (IHa t).this_depth
  have a3 : ∀ t, (visit_expression t k).1.scope_depth = t.scope_depth :=
    fun t => (IHa t).scope_depth
  have a4 : ∀ t, (visit_expression t k).1.make_sloppy_mode = t.make_sloppy_mode :=
    fun t => (IHa t).sloppy
  have a5 : ∀ t, (visit_expression t k).1.ctx.current_scope_id = t.ctx.current_scope_id :=
    fun t => (IHa t).cur
  have a6 : ∀ t, (visit_expression t k).1.ctx.temp_name = t.ctx.temp_name :=
    fun t => (IHa t).temp_name
  have a7 : ∀ t, (visit_expression t k).1.class_properties.bindings.name
      = t.class_properties.bindings.name := fun t => (IHa t).name_b
  have a8 : ∀ t, t.make_sloppy_mode = false →
      (visit_expression t k).1.ctx.scope_strict = t.ctx.scope_strict :=
    fun t => (IHa t).strict_frame
  have a9 : ∀ t sc, t.ctx.scope_strict sc = false →
      (visit_expression t k).1.ctx.scope_strict sc = false :=
    fun t sc => (IHa t).strict_mono sc
  have a10 : ∀ t b, t.class_properties.bindings.static_binding = some b →
      (visit_expression t k).1.class_properties.bindings.static_binding = some b :=
    fun t b hb => (IHa t).temp_mono b hb
  have a11 : ∀ t, 0 < t.scope_depth →
      (visit_expression t k).1.ctx.scope_parent = t.ctx.scope_parent :=
    fun t => (IHa t).parent_frame
  have b1 : ∀ t, (visit_expression t vv).1.walk_deep = t.walk_deep :=
    fun t => (IHb t).walk_deep
  have b2 : ∀ t, (visit_expression t vv).1.this_depth = t.this_depth :=
    fun t => (IHb t).this_depth
  have b3 : ∀ t, (visit_expression t vv).1.scope_depth = t.scope_depth :=
    fun t => (IHb t).scope_depth
  have b4 : ∀ t, (visit_expression t vv).1.make_sloppy_mode = t.make_sloppy_mode :=
    fun t => (IHb t).sloppy
  have b5 : ∀ t, (visit_expression t vv).1.ctx.current_scope_id = t.ctx.current_scope_id :=
    fun t => (IHb t).cur
  have b6 : ∀ t, (visit_expression t vv).1.ctx.temp_name = t.ctx.temp_name :=
    fun t => (IHb t).temp_name
  have b7 : ∀ t, (visit_expression t vv).1.class_properties.bindings.name
      = t.class_properties.bindings.name := fun t => (IHb t).name_b
  have b8 : ∀ t, t.make_sloppy_mode = false →
      (visit_expression t vv).1.ctx.scope_strict = t.ctx.scope_strict :=
    fun t => (IHb t).strict_frame
  have b9 : ∀ t sc, t.ctx.scope_strict sc = false →
      (visit_expression t vv).1.ctx.scope_strict sc = false :=
    fun t sc => (IHb t).strict_mono sc
  have b10 : ∀ t b, t.class_properties.bindings.static_binding = some b →
      (visit_expression t vv).1.class_properties.bindings.static_binding = some b :=
    fun t b hb => (IHb t).temp_mono b hb
  have b11 : ∀ t, 0 < t.scope_depth →
      (visit_expression t vv).1.ctx.scope_parent = t.ctx.scope_parent :=
    fun t => (IHb t).parent_frame
  refine ⟨?_, ?_, ?_, ?_, ?_, ?_, ?_, ?_, ?_, ?_, ?_⟩
  · simp only [visit_class_element]; all_goals ((try split_ifs) <;> simp [a1, b1])
  · simp only [visit_class_element]; all_goals ((try split_ifs) <;> simp [a2, b2])
  · simp only [visit_class_element]; all_goals ((try split_ifs) <;> simp [a3, b3])
  · simp only [visit_class_element]; all_goals ((try split_ifs) <;> simp [a4, b4])
  · simp only [visit_class_element]; all_goals ((try split_ifs) <;> simp [a5, b5])
  · simp only [visit_class_element]; all_goals ((try split_ifs) <;> simp [a6, b6])
  · simp only [visit_class_element]; all_goals ((try split_ifs) <;> simp [a7, b7])
  · intro b hb
    simp only [visit_class_element]
    simp only [tempOf] at hb
    all_goals ((try split_ifs) <;> simp [tempOf, a10, b10, hb])
  · intro h
    simp only [visit_class_element]
    all_goals ((try split_ifs) <;> simp [a4, a8, b8, h])
  · intro sc h
    simp only [visit_class_element]
    all_goals ((try split_ifs) <;> simp [a9, b9, h])
  · intro h
    simp only [visit_class_element]
    all_goals ((try split_ifs) <;> simp [a3, a11, b11, h])

theorem frame_acc_none_core (c : Bool) (k : Expr)
    (IHa : ∀ t, Frame t (visit_expression t k).1) (s : VState) :
    Frame s (visit_class_element s (.accessorProp c k none)).1 := by
  have a1 : ∀ t, (visit_expression t k).1.walk_deep = t.walk_deep :=
    fun t => (IHa t).walk_deep
  have a2 : ∀ t, (visit_expression t k).1.this_depth = t.this_depth :=
    fun t => (IHa t).this_depth
  have a3 : ∀ t, (visit_expression t k).1.scope_depth = t.scope_depth :=
    fun t => (IHa t).scope_depth
  have a4 : ∀ t, (visit_expression t k).1.make_sloppy_mode = t.make_sloppy_mode :=
    fun t => (IHa t).sloppy
  have a5 : ∀ t, (visit_expression t k).1.ctx.current_scope_id = t.ctx.current_scope_id :=
    fun t => (IHa t).cur
  have a6 : ∀ t, (visit_expression t k).1.ctx.temp_name = t.ctx.temp_name :=
    fun t => (IHa t).temp_name
  have a7 : ∀ t, (visit_expression t k).1.class_properties.bindings.name
      = t.class_properties.bindings.name := fun t => (IHa t).name_b
  have a8 : ∀ t, t.make_sloppy_mode = false →
      (visit_expression t k).1.ctx.scope_strict = t.ctx.scope_strict :=
    fun t => (IHa t).strict_frame
  have a9 : ∀ t sc, t.ctx.scope_strict sc = false →
      (visit_expression t k).1.ctx.scope_strict sc = false :=
    fun t sc => (IHa t).strict_mono sc
  have a10 : ∀ t b, t.class_properties.bindings.static_binding = some b →
      (visit_expression t k).1.class_properties.bindings.static_binding = some b :=
    fun t b hb => (IHa t).temp_mono b hb
  have a11 : ∀ t, 0 < t.scope_depth →
      (visit_expression t k).1.ctx.scope_parent = t.ctx.scope_parent :=
    fun t => (IHa t).parent_frame
  refine ⟨?_, ?_, ?_, ?_, ?_, ?_, ?_, ?_, ?_, ?_, ?_⟩
  · simp only [visit_class_element]; all_goals ((try split_ifs) <;> simp [a1])
  · simp only [visit_class_element]; all_goals ((try split_ifs) <;> simp [a2])
  · simp only [visit_class_element]; all_goals ((try split_ifs) <;> simp [a3])
  · simp only [visit_class_element]; all_goals ((try split_ifs) <;> simp [a4])
  · simp only [visit_class_element]; all_goals ((try split_ifs) <;> simp [a5])
  · simp only [visit_class_element]; all_goals ((try split_ifs) <;> simp [a6])
  · simp only [visit_class_element]; all_goals ((try split_ifs) <;> simp [a7])
  · intro b hb
    simp only [visit_class_element]
    simp only [tempOf] at hb
    all_goals ((try split_ifs) <;> simp [tempOf, a10, hb])
  · intro h
    simp only [visit_class_element]
    all_goals ((try split_ifs) <;> simp [a8, h])
  · intro sc h
    simp only [visit_class_element]
    all_goals ((try split_ifs) <;> simp [a9, h])
  · intro h
    simp only [visit_class_element]
    all_goals ((try split_ifs) <;> simp [a11, h])

end FramePropCore

mutual

theorem frame_visit_expression : ∀ (e : Expr) (s : VState), Frame s (visit_expression s e).1
  | .thisE _, _ => frame_rtwt
  | .deleteThis _ _, s => frame_rdt
  | .superE _, s => Frame.refl s
  | .boolLit _ _, s => Frame.refl s
  | .unary _ a, s => frame_visit_expression a s
  | .ident _ _ _, _ => frame_rcnwt
  | .staticMember _ o _, s =>
      frame_trans frame_tsme (frame_visit_expression o _)
  | .computedMember _ o i, s =>
      frame_trans frame_tcme
        (frame_trans (frame_visit_expression o _) (frame_visit_expression i _))
  | .callE _ c args, s =>
      frame_trans frame_tce
        (frame_trans (frame_visit_expression c _) (frame_visit_expression_list args _))
  | .assign _ t v, s =>
      frame_trans frame_tae
        (frame_trans (frame_visit_assignment_target t _) (frame_visit_expression v _))
  | .update _ t, s =>
      frame_trans frame_tue (frame_visit_assignment_target t _)
  | .fn sid us body, s =>
      frame_fn_core sid us body (fun t => frame_visit_statements body t) s
  | .arrow sid us body, s =>
      frame_arrow_core sid us body (fun t => frame_visit_statements body t) s
  | .classE sid els, s =>
      frame_class_core sid els (fun t => frame_visit_class_elements els t) s

theorem frame_visit_assignment_target :
    ∀ (t : Expr) (s : VState), Frame s (visit_assignment_target s t).1
  | .ident _ _ _, _ => frame_rcnwt
  | .staticMember _ o _, s => frame_visit_expression o s
  | .computedMember _ o i, s =>
      frame_trans (frame_visit_expression o _) (frame_visit_expression i _)
  | .thisE _, s => Frame.refl s
  | .superE _, s => Frame.refl s
  | .deleteThis _ _, s => Frame.refl s
  | .unary _ _, s => Frame.refl s
  | .boolLit _ _, s => Frame.refl s
  | .callE _ _ _, s => Frame.refl s
  | .assign _ _ _, s => Frame.refl s
  | .update _ _, s => Frame.refl s
  | .fn _ _ _, s => Frame.refl s
  | .arrow _ _ _, s => Frame.refl s
  | .classE _ _, s => Frame.refl s

theorem frame_visit_expression_list :
    ∀ (es : List Expr) (s : VState), Frame s (visit_expression_list s es).1
  | [], s => Frame.refl s
  | e :: rest, s =>
      frame_trans (frame_visit_expression e _) (frame_visit_expression_list rest _)

theorem frame_visit_statement :
    ∀ (st : Stmt) (s : VState), Frame s (visit_statement s st).1
  | .exprStmt e, s => frame_visit_expression e s
  | .block sid body, s =>
      frame_block_core sid body (fun t => frame_visit_statements body t) s
  | .moduleBlock sid us body, s =>
      frame_module_core sid us body (fun t => frame_visit_statements body t) s

theorem frame_visit_statements :
    ∀ (sts : List Stmt) (s : VState), Frame s (visit_statements s sts).1
  | [], s => Frame.refl s
  | st :: rest, s =>
      frame_trans (frame_visit_statement st _) (frame_visit_statements rest _)

theorem frame_visit_class_element :
    ∀ (el : ClassElem) (s : VState), Frame s (visit_class_element s el).1
  | .propertyDef c k (some vv), s =>
      frame_prop_some_core c k vv
        (fun t => frame_visit_expression k t) (fun t => frame_visit_expression vv t) s
  | .propertyDef c k none, s =>
      frame_prop_none_core c k (fun t => frame_visit_expression k t) s
  | .accessorProp c k (some vv), s =>
      frame_acc_some_core c k vv
        (fun t => frame_visit_expression k t) (fun t => frame_visit_expression vv t) s
  | .accessorProp c k none, s =>
      frame_acc_none_core c k (fun t => frame_visit_expression k t) s
  | .staticBlock sid body, s =>
      frame_static_block_core sid body (fun t => frame_visit_statements body t) s

theorem frame_visit_class_elements :
    ∀ (els : List ClassElem) (s : VState), Frame s (visit_class_elements s els).1
  | [], s => Frame.refl s
  | el :: rest, s =>
      frame_trans (frame_visit_class_element el _) (frame_visit_class_elements rest _)

end

section StepBasics

variable {s s' s1 s2 : VState} {rid x : Nat}

theorem lt_next_of_ref_some (hi : Inv s) (h : s.ctx.ref_symbol rid = some x) :
    rid < s.ctx.next_reference_id := by
  by_contra hh
  push_neg at hh
  rw [hi.fresh_sym rid hh] at h
  exact Option.noConfusion h

theorem done_of_tables (h : Done s rid) (h1 : s'.ctx.ref_symbol = s.ctx.ref_symbol)
    (h2 : s'.ctx.resolved_refs = s.ctx.resolved_refs)
    (h3 : s'.ctx.next_reference_id = s.ctx.next_reference_id)
    (hcp : s'.class_properties = s.class_properties) : Done s' rid := by
  unfold Done tempOf classNameSymId at h ⊢
  rw [h1, h2, h3, hcp]
  exact h

theorem inv_of_sameTables (hi : Inv s) (h : SameTables s s') : Inv s' := by
  obtain ⟨e1, e2, e3, e4, e5⟩ := h
  constructor
  · intro sym rr hm
    rw [e1]; exact hi.link sym rr (by rwa [e2] at hm)
  · intro sym rr hge
    rw [e2]; exact hi.fresh_refs sym rr (by rwa [e3] at hge)
  · intro rr hge
    rw [e1]; exact hi.fresh_sym rr (by rwa [e3] at hge)
  · intro nb hnb
    rw [e4]; exact hi.name_lt nb (by rwa [e5] at hnb)
  · intro b nb hb hnb
    exact hi.temp_ne b nb (by unfold tempOf at hb ⊢; rwa [e5] at hb)
      (by rwa [e5] at hnb)

theorem Step.of_sameTables (hi : Inv s) (h : SameTables s s') : Step s s' := by
  obtain ⟨e1, e2, e3, e4, e5⟩ := h
  constructor
  · exact inv_of_sameTables hi ⟨e1, e2, e3, e4, e5⟩
  · rw [e5]
  · intro b hb; unfold tempOf at hb ⊢; rw [e5]; exact hb
  · rw [e3]
  · intro rr hd
    exact done_of_tables hd e1 e2 e3 e5
  · intro rr _
    left; rw [e1]

theorem Step.refl_of_inv (hi : Inv s) : Step s s :=
  Step.of_sameTables hi ⟨rfl, rfl, rfl, rfl, rfl⟩

theorem step_trans (st1 : Step s s1) (st2 : Step s1 s2) : Step s s2 := by
  constructor
  · exact st2.inv
  · exact st2.name_eq.trans st1.name_eq
  · exact fun b hb => st2.temp_mono b (st1.temp_mono b hb)
  · exact le_trans st1.ref_mono st2.ref_mono
  · exact fun rr hd => st2.done_mono rr (st1.done_mono rr hd)
  · intro rr hlt
    rcases st1.stable rr hlt with h1 | ⟨c, hc, hr, hd⟩
    · rcases st2.stable rr (lt_of_lt_of_le hlt st1.ref_mono) with h2 | ⟨c, hc, hr, hd⟩
      · left; rw [h2, h1]
      · right
        refine ⟨c, ?_, ?_, hd⟩
        · unfold classNameSymId at hc ⊢; rwa [st1.name_eq] at hc
        · rwa [h1] at hr
    · exact Or.inr ⟨c, hc, hr, st2.done_mono rr hd⟩

end StepBasics

section StepControl

variable {s s1 s2 : VState} {rid span sid : Nat} {name : String} {e : Expr} {nb : Binding}

theorem Step.of_ctrl (hi : Inv s) {s' : VState} (h1 : s'.ctx = s.ctx)
    (h2 : s'.class_properties = s.class_properties) : Step s s' :=
  Step.of_sameTables hi ⟨by rw [h1], by rw [h1], by rw [h1], by rw [h1], h2⟩

theorem step_enter_scope (hi : Inv s) : Step s (enter_scope s sid) :=
  Step.of_sameTables hi ⟨by simp, by simp, by simp, by simp, by simp⟩

theorem step_reparent (hi : Inv s) : Step s (reparent_scope_if_first_level s sid) :=
  Step.of_sameTables hi ⟨by simp, by simp, by simp, by simp, by simp⟩

theorem step_rdt (hi : Inv s) : Step s (replace_delete_this_with_true s e span).1 := by
  unfold replace_delete_this_with_true
  split <;> exact Step.refl_of_inv hi

theorem sameTables_tsme :
    SameTables s (transform_static_member_expression_if_super s span) := by
  refine ⟨?_, ?_, ?_, ?_, ?_⟩ <;> (rw [tsme_eq]; split <;> simp)

theorem sameTables_tcme :
    SameTables s (transform_computed_member_expression_if_super s span) := by
  refine ⟨?_, ?_, ?_, ?_, ?_⟩ <;> (rw [tcme_eq]; split <;> simp)

theorem sameTables_tce :
    SameTables s (transform_call_expression_if_super_member_expression s span) := by
  refine ⟨?_, ?_, ?_, ?_, ?_⟩ <;> (rw [tce_eq]; split <;> simp)

theorem sameTables_tae :
    SameTables s (transform_assignment_expression_if_super s span) := by
  refine ⟨?_, ?_, ?_, ?_, ?_⟩ <;> (rw [tae_eq]; split <;> simp)

theorem sameTables_tue :
    SameTables s (transform_update_expression_if_super s span) := by
  refine ⟨?_, ?_, ?_, ?_, ?_⟩ <;> (rw [tue_eq]; split <;> simp)

theorem done_propagate (hi : Inv s) (st1 : Step s s1) (st2 : Step s1 s2)
    (hname : s.class_properties.bindings.name = some nb)
    (href : s.ctx.ref_symbol rid = some nb.symbol_id)
    (dn : ∀ nb2, s1.class_properties.bindings.name = some nb2 →
        s1.ctx.ref_symbol rid = some nb2.symbol_id → Done s2 rid) :
    Done s2 rid := by
  have hlt := lt_next_of_ref_some hi href
  have hname1 : s1.class_properties.bindings.name = some nb := by
    rw [st1.name_eq, hname]
  rcases st1.stable rid hlt with heq | ⟨c, hc, hr, hd⟩
  · exact dn nb hname1 (by rw [heq, href])
  · exact st2.done_mono rid hd

end StepControl


section StepReplace

variable {s : VState} {rid span : Nat} {name : String}

theorem getOrInit_sym_ne_name (hi : Inv s) (nb : Binding)
    (hname : s.class_properties.bindings.name = some nb) :
    (getOrInitStaticBinding s.class_properties s.ctx).2.2.symbol_id ≠ nb.symbol_id := by
  rcases @getOrInit_binding_lt_or_eq s.class_properties s.ctx with
    ⟨bb, hbb, hbe⟩ | ⟨hnone, hbe⟩
  · rw [hbe]; exact hi.temp_ne bb nb hbb hname
  · rw [hbe]; exact Nat.ne_of_gt (hi.name_lt nb hname)

theorem mem_filter_ne {l : List Nat} {a b : Nat} :
    a ∈ l.filter (fun rr => rr ≠ b) ↔ a ∈ l ∧ a ≠ b := by
  simp [List.mem_filter]

theorem not_mem_filter_ne_self {l : List Nat} {b : Nat} :
    b ∉ l.filter (fun rr => rr ≠ b) := by
  simp [List.mem_filter]

theorem done_rcnwt (hi : Inv s) (nb : Binding)
    (hname : s.class_properties.bindings.name = some nb)
    (href : s.ctx.ref_symbol rid = some nb.symbol_id) :
    Done (replace_class_name_with_temp_var s rid name).1 rid := by
  have hbne := getOrInit_sym_ne_name hi nb hname
  have hlt := lt_next_of_ref_some hi href
  unfold replace_class_name_with_temp_var
  rw [hname, href]
  simp only [ne_eq, not_true_eq_false, if_neg, ite_false, if_false]
  refine ⟨(getOrInitStaticBinding s.class_properties s.ctx).2.2, ?_, ?_, ?_, ?_, ?_⟩
  · simp [tempOf]
  · simp
  · have hnotin : rid ∉ s.ctx.resolved_refs
        (getOrInitStaticBinding s.class_properties s.ctx).2.2.symbol_id := by
      intro hmem
      have := hi.link _ rid hmem
      rw [href] at this
      exact hbne (Option.some.injEq _ _ ▸ this.symm ▸ rfl)
    simp [hbne, List.count_append, List.count_eq_zero.mpr hnotin]
  · intro c hc
    simp only [classNameSymId, getOrInit_name, hname, Option.map_some] at hc
    have hceq : c = nb.symbol_id := by
      simpa using hc.symm
    subst hceq
    simp [Ne.symm hbne, not_mem_filter_ne_self]
  · simpa using hlt

end StepReplace


section StepReplace2

variable {s : VState} {rid span : Nat} {name : String}

theorem step_rcnwt (hi : Inv s) : Step s (replace_class_name_with_temp_var s rid name).1 := by
  rcases hname : s.class_properties.bindings.name with _ | nb
  · unfold replace_class_name_with_temp_var
    rw [hname]
    exact Step.refl_of_inv hi
  · rcases href : s.ctx.ref_symbol rid with _ | symid
    · unfold replace_class_name_with_temp_var
      rw [hname, href]
      exact Step.refl_of_inv hi
    · by_cases hsym : symid = nb.symbol_id
      case neg =>
        unfold replace_class_name_with_temp_var
        rw [hname, href]
        simp only [ne_eq, hsym, not_false_eq_true, ite_true]
        exact Step.refl_of_inv hi
      case pos =>
        subst hsym
        have hbne := getOrInit_sym_ne_name hi nb hname
        have hlt := lt_next_of_ref_some hi href
        have hdone : Done (replace_class_name_with_temp_var s rid name).1 rid :=
          done_rcnwt hi nb hname href
        unfold replace_class_name_with_temp_var at hdone ⊢
        rw [hname, href] at hdone ⊢
        simp only [ne_eq, not_true_eq_false, if_neg, ite_false, if_false,
          getOrInit_ref_symbol, getOrInit_resolved_refs, getOrInit_next_ref,
          getOrInit_name] at hdone ⊢
        constructor
        · -- Inv
          constructor
          · -- link
            intro sym rr hm
            simp only at hm ⊢
            by_cases h1 : sym = (getOrInitStaticBinding s.class_properties s.ctx).2.2.symbol_id
            · subst h1
              rw [if_pos rfl] at hm
              rw [if_neg hbne] at hm
              rcases List.mem_append.mp hm with hmem | hmem
              · have hrr := hi.link _ rr hmem
                have hne : rr ≠ rid := by
                  intro he; subst he
                  rw [href] at hrr
                  exact hbne (by injection hrr with h; exact h.symm) 
                rw [if_neg hne]
                exact hrr
              · have : rr = rid := by simpa using hmem
                subst this
                rw [if_pos rfl]
            · rw [if_neg h1] at hm
              by_cases h2 : sym = nb.symbol_id
              · subst h2
                rw [if_pos rfl] at hm
                obtain ⟨hmem, hne⟩ := mem_filter_ne.mp hm
                rw [if_neg hne]
                exact hi.link _ rr hmem
              · rw [if_neg h2] at hm
                have hrr := hi.link _ rr hm
                have hne : rr ≠ rid := by
                  intro he; subst he
                  rw [href] at hrr
                  exact h2 (by injection hrr with h; exact h.symm)
                rw [if_neg hne]
                exact hrr
          · -- fresh_refs
            intro sym rr hge
            simp only at hge ⊢
            have hrr : rid < rr := lt_of_lt_of_le hlt hge
            have hnotin := hi.fresh_refs sym rr hge
            by_cases h1 : sym = (getOrInitStaticBinding s.class_properties s.ctx).2.2.symbol_id
            · subst h1
              rw [if_pos rfl, if_neg hbne]
              intro hmem
              rcases List.mem_append.mp hmem with hmem | hmem
              · exact hnotin hmem
              · have : rr = rid := by simpa using hmem
                omega
            · rw [if_neg h1]
              by_cases h2 : sym = nb.symbol_id
              · subst h2
                rw [if_pos rfl]
                intro hmem
                exact hnotin (mem_filter_ne.mp hmem).1
              · rw [if_neg h2]
                exact hnotin
          · -- fresh_sym
            intro rr hge
            simp only at hge ⊢
            have hne : rr ≠ rid := by omega
            rw [if_neg hne]
            exact hi.fresh_sym rr hge
          · -- name_lt
            intro nb2 hnb2
            rw [getOrInit_name] at hnb2
            rw [hname] at hnb2
            injection hnb2 with hnb2
            subst hnb2
            exact lt_of_lt_of_le (hi.name_lt nb hname) getOrInit_sym_mono
          · -- temp_ne
            intro b2 nb2 hb2 hnb2
            simp only [tempOf] at hb2
            rw [getOrInit_name] at hnb2
            rw [hname] at hnb2
            injection hnb2 with hnb2
            subst hnb2
            rw [getOrInit_static] at hb2
            injection hb2 with hb2
            subst hb2
            exact hbne
        · -- name_eq
          simp [hname]
        · -- temp_mono
          intro b hb
          simp only [tempOf] at hb ⊢
          rw [getOrInit_static]
          rw [@getOrInit_of_some _ s.ctx _ hb]
        · -- ref_mono
          simp
        · -- done_mono
          intro rr hd
          obtain ⟨b0, hb0, hr0, hc0, hcl0, hlt0⟩ := hd
          have hg : getOrInitStaticBinding s.class_properties s.ctx
              = (s.class_properties, s.ctx, b0) := getOrInit_of_some hb0
          have hb0ne : b0.symbol_id ≠ nb.symbol_id := hi.temp_ne b0 nb hb0 hname
          have hrne : rr ≠ rid := by
            intro he; subst he
            rw [href] at hr0
            exact hb0ne (by injection hr0 with h; exact h.symm)
          refine ⟨b0, ?_, ?_, ?_, ?_, ?_⟩
          · simp only [tempOf]
            rw [getOrInit_static, hg]
          · simp only
            rw [if_neg hrne]
            exact hr0
          · simp only [hg]
            have hz : List.count rr [rid] = 0 :=
              List.count_eq_zero.mpr (by simp [hrne])
            simp [hb0ne, List.count_append, hz, hc0]
          · intro c hc
            try simp only [classNameSymId] at hc
            rw [getOrInit_name] at hc
            rw [hname] at hc
            have hc2 : c = nb.symbol_id := by
              simp at hc
              omega
            subst hc2
            have hnotin := hcl0 nb.symbol_id (by simp [classNameSymId, hname])
            simp [Ne.symm hbne, mem_filter_ne, hnotin]
          · simpa using hlt0
        · -- stable
          intro rr hrlt
          simp only
          by_cases hrr : rr = rid
          · subst hrr
            right
            refine ⟨nb.symbol_id, ?_, href, hdone⟩
            simp [classNameSymId, hname]
          · left
            rw [if_neg hrr]

end StepReplace2


section StepReplace3

variable {s : VState} {rid span : Nat} {name : String} {e : Expr}

theorem step_rtwt (hi : Inv s) : Step s (replace_this_with_temp_var s e span).1 := by
  unfold replace_this_with_temp_var
  split
  case isFalse => exact Step.refl_of_inv hi
  case isTrue hdep =>
    simp only [createSpannedReadExpression, getOrInit_ref_symbol, getOrInit_resolved_refs,
      getOrInit_next_ref, getOrInit_scope_parent, getOrInit_scope_strict, getOrInit_current,
      getOrInit_temp_name, getOrInit_super_log]
    constructor
    · constructor
      · -- link
        intro sym rr hm
        try simp only at hm ⊢
        by_cases h1 : sym = (getOrInitStaticBinding s.class_properties s.ctx).2.2.symbol_id
        · subst h1
          rw [if_pos rfl] at hm
          rcases List.mem_append.mp hm with hmem | hmem
          · have hrr := hi.link _ rr hmem
            have hne : rr ≠ s.ctx.next_reference_id := by
              intro he; subst he
              exact hi.fresh_refs _ _ le_rfl hmem
            rw [if_neg hne]
            exact hrr
          · have : rr = s.ctx.next_reference_id := by simpa using hmem
            subst this
            rw [if_pos rfl]
        · rw [if_neg h1] at hm
          have hrr := hi.link _ rr hm
          have hne : rr ≠ s.ctx.next_reference_id := by
            intro he; subst he
            exact hi.fresh_refs _ _ le_rfl hm
          rw [if_neg hne]
          exact hrr
      · -- fresh_refs
        intro sym rr hge
        try simp only at hge ⊢
        have hge' : s.ctx.next_reference_id ≤ rr := by omega
        have hne : rr ≠ s.ctx.next_reference_id := by omega
        by_cases h1 : sym = (getOrInitStaticBinding s.class_properties s.ctx).2.2.symbol_id
        · subst h1
          rw [if_pos rfl]
          intro hmem
          rcases List.mem_append.mp hmem with hmem | hmem
          · exact hi.fresh_refs _ rr hge' hmem
          · exact hne (by simpa using hmem)
        · rw [if_neg h1]
          exact hi.fresh_refs _ _ hge'
      · -- fresh_sym
        intro rr hge
        try simp only at hge ⊢
        have hne : rr ≠ s.ctx.next_reference_id := by omega
        rw [if_neg hne]
        exact hi.fresh_sym rr (by omega)
      · -- name_lt
        intro nb hnb
        rw [getOrInit_name] at hnb
        try simp only
        exact lt_of_lt_of_le (hi.name_lt nb hnb) getOrInit_sym_mono
      · -- temp_ne
        intro b2 nb2 hb2 hnb2
        simp only [tempOf] at hb2
        rw [getOrInit_static] at hb2
        injection hb2 with hb2
        subst hb2
        rw [getOrInit_name] at hnb2
        exact getOrInit_sym_ne_name hi nb2 hnb2
    · -- name_eq
      simp
    · -- temp_mono
      intro b hb
      simp only [tempOf] at hb ⊢
      rw [getOrInit_static]
      rw [@getOrInit_of_some _ s.ctx _ hb]
    · -- ref_mono
      try simp only
      omega
    · -- done_mono
      intro rr hd
      obtain ⟨b0, hb0, hr0, hc0, hcl0, hlt0⟩ := hd
      have hg : getOrInitStaticBinding s.class_properties s.ctx
          = (s.class_properties, s.ctx, b0) := getOrInit_of_some hb0
      have hne : rr ≠ s.ctx.next_reference_id := by omega
      refine ⟨b0, ?_, ?_, ?_, ?_, ?_⟩
      · simp only [tempOf]
        rw [getOrInit_static, hg]
      · try simp only
        rw [if_neg hne]
        exact hr0
      · simp only [hg]
        have hz : List.count rr [s.ctx.next_reference_id] = 0 :=
          List.count_eq_zero.mpr (by simp [hne])
        simp [List.count_append, hz, hc0]
      · intro c hc
        try simp only [classNameSymId] at hc
        rw [getOrInit_name] at hc
        have hcs : classNameSymId s = some c := by
          simpa [classNameSymId] using hc
        have hnotin := hcl0 c hcs
        obtain ⟨nb, hnb, hcnb⟩ : ∃ nb, s.class_properties.bindings.name = some nb
            ∧ nb.symbol_id = c := by
          unfold classNameSymId at hcs
          cases hh : s.class_properties.bindings.name with
          | none => rw [hh] at hcs; simp at hcs
          | some nb =>
            rw [hh] at hcs
            simp at hcs
            exact ⟨nb, rfl, hcs⟩
        have hb0nb := hi.temp_ne b0 nb hb0 hnb
        have hcne : c ≠ b0.symbol_id := by omega
        simp only [hg]
        rw [if_neg hcne]
        exact hnotin
      · try simp only
        omega
    · -- stable
      intro rr hrlt
      left
      try simp only
      rw [if_neg (by omega : rr ≠ s.ctx.next_reference_id)]

end StepReplace3

section StepCore

theorem step_fn_core (sid : Nat) (us : Bool) (body : List Stmt)
    (IH : ∀ t, Inv t → StmtsOK body t) (s : VState) (hi : Inv s) :
    ExprOK (.fn sid us body) s := by
  unfold ExprOK
  simp only [visit_expression, exprRefIds]
  split_ifs with hc hw hw
  case pos =>
    have st_a : Step s { s with make_sloppy_mode := false } := Step.of_ctrl hi rfl rfl
    have st_b := @step_reparent _ sid st_a.inv
    have st_c : Step (reparent_scope_if_first_level { s with make_sloppy_mode := false } sid)
        { reparent_scope_if_first_level { s with make_sloppy_mode := false } sid with
          this_depth := (reparent_scope_if_first_level
            { s with make_sloppy_mode := false } sid).this_depth + 1,
          scope_depth := (reparent_scope_if_first_level
            { s with make_sloppy_mode := false } sid).scope_depth + 1 } :=
      Step.of_ctrl st_b.inv rfl rfl
    have st_d := @step_enter_scope _ sid st_c.inv
    obtain ⟨st_e, dn_e⟩ := IH _ st_d.inv
    constructor
    · refine step_trans st_a (step_trans st_b (step_trans st_c (step_trans st_d
        (step_trans st_e ?_))))
      exact Step.of_ctrl st_e.inv rfl rfl
    · intro hw2 rid hmem nb hname href
      refine done_of_tables (dn_e ?_ rid hmem nb ?_ ?_) rfl rfl rfl rfl
      · simp [hw2]
      · simp [hname]
      · simp [href]
  case neg =>
    have st_a : Step s { s with make_sloppy_mode := false } := Step.of_ctrl hi rfl rfl
    have st_b := @step_reparent _ sid st_a.inv
    constructor
    · exact step_trans st_a (step_trans st_b (Step.of_ctrl st_b.inv rfl rfl))
    · intro hw2 rid hmem nb hname href
      exfalso
      simp [hw2] at hw
  case pos =>
    have st_b := @step_reparent _ sid hi
    have st_c : Step (reparent_scope_if_first_level s sid)
        { reparent_scope_if_first_level s sid with
          this_depth := (reparent_scope_if_first_level s sid).this_depth + 1,
          scope_depth := (reparent_scope_if_first_level s sid).scope_depth + 1 } :=
      Step.of_ctrl st_b.inv rfl rfl
    have st_d := @step_enter_scope _ sid st_c.inv
    obtain ⟨st_e, dn_e⟩ := IH _ st_d.inv
    constructor
    · refine step_trans st_b (step_trans st_c (step_trans st_d (step_trans st_e ?_)))
      exact Step.of_ctrl st_e.inv rfl rfl
    · intro hw2 rid hmem nb hname href
      refine done_of_tables (dn_e ?_ rid hmem nb ?_ ?_) rfl rfl rfl rfl
      · simp [hw2]
      · simp [hname]
      · simp [href]
  case neg =>
    have st_b := @step_reparent _ sid hi
    constructor
    · exact step_trans st_b (Step.of_ctrl st_b.inv rfl rfl)
    · intro hw2 rid hmem nb hname href
      exfalso
      simp [hw2] at hw

theorem step_arrow_core (sid : Nat) (us : Bool) (body : List Stmt)
    (IH : ∀ t, Inv t → StmtsOK body t) (s : VState) (hi : Inv s) :
    ExprOK (.arrow sid us body) s := by
  unfold ExprOK
  simp only [visit_expression, exprRefIds]
  split_ifs with hc
  case pos =>
    have st_a : Step s { s with make_sloppy_mode := false } := Step.of_ctrl hi rfl rfl
    have st_b := @step_reparent _ sid st_a.inv
    have st_c : Step (reparent_scope_if_first_level { s with make_sloppy_mode := false } sid)
        { reparent_scope_if_first_level { s with make_sloppy_mode := false } sid with
          scope_depth := (reparent_scope_if_first_level
            { s with make_sloppy_mode := false } sid).scope_depth + 1 } :=
      Step.of_ctrl st_b.inv rfl rfl
    have st_d := @step_enter_scope _ sid st_c.inv
    obtain ⟨st_e, dn_e⟩ := IH _ st_d.inv
    constructor
    · refine step_trans st_a (step_trans st_b (step_trans st_c (step_trans st_d
        (step_trans st_e ?_))))
      exact Step.of_ctrl st_e.inv rfl rfl
    · intro hw2 rid hmem nb hname href
      refine done_of_tables (dn_e ?_ rid hmem nb ?_ ?_) rfl rfl rfl rfl
      · simp [hw2]
      · simp [hname]
      · simp [href]
  case neg =>
    have st_b := @step_reparent _ sid hi
    have st_c : Step (reparent_scope_if_first_level s sid)
        { reparent_scope_if_first_level s sid with
          scope_depth := (reparent_scope_if_first_level s sid).scope_depth + 1 } :=
      Step.of_ctrl st_b.inv rfl rfl
    have st_d := @step_enter_scope _ sid st_c.inv
    obtain ⟨st_e, dn_e⟩ := IH _ st_d.inv
    constructor
    · refine step_trans st_b (step_trans st_c (step_trans st_d (step_trans st_e ?_)))
      exact Step.of_ctrl st_e.inv rfl rfl
    · intro hw2 rid hmem nb hname href
      refine done_of_tables (dn_e ?_ rid hmem nb ?_ ?_) rfl rfl rfl rfl
      · simp [hw2]
      · simp [hname]
      · simp [href]

theorem step_class_core (sid : Nat) (els : List ClassElem)
    (IH : ∀ t, Inv t → ElemsOK els t) (s : VState) (hi : Inv s) :
    ExprOK (.classE sid els) s := by
  unfold ExprOK
  simp only [visit_expression, exprRefIds]
  have st_a : Step s { s with make_sloppy_mode := false } := Step.of_ctrl hi rfl rfl
  have st_b := @step_reparent _ sid st_a.inv
  have st_c : Step (reparent_scope_if_first_level { s with make_sloppy_mode := false } sid)
      { reparent_scope_if_first_level { s with make_sloppy_mode := false } sid with
        scope_depth := (reparent_scope_if_first_level
          { s with make_sloppy_mode := false } sid).scope_depth + 1 } :=
    Step.of_ctrl st_b.inv rfl rfl
  have st_d := @step_enter_scope _ sid st_c.inv
  obtain ⟨st_e, dn_e⟩ := IH _ st_d.inv
  constructor
  · refine step_trans st_a (step_trans st_b (step_trans st_c (step_trans st_d
      (step_trans st_e ?_))))
    exact Step.of_ctrl st_e.inv rfl rfl
  · intro hw2 rid hmem nb hname href
    refine done_of_tables (dn_e ?_ rid hmem nb ?_ ?_) rfl rfl rfl rfl
    · simp [hw2]
    · simp [hname]
    · simp [href]

theorem step_module_core (sid : Nat) (us : Bool) (body : List Stmt)
    (IH : ∀ t, Inv t → StmtsOK body t) (s : VState) (hi : Inv s) :
    StmtOK (.moduleBlock sid us body) s := by
  unfold StmtOK
  simp only [visit_statement, stmtRefIds]
  have st_a := @step_enter_scope s sid hi
  split_ifs with hc hw hw
  case pos =>
    have st_b : Step (enter_scope s sid) { enter_scope s sid with make_sloppy_mode := false } :=
      Step.of_ctrl st_a.inv rfl rfl
    have st_c : Step ({ enter_scope s sid with make_sloppy_mode := false } : VState)
        { { enter_scope s sid with make_sloppy_mode := false } with
          this_depth :=
            ({ enter_scope s sid with make_sloppy_mode := false } : VState).this_depth + 1 } :=
      Step.of_ctrl st_b.inv rfl rfl
    obtain ⟨st_e, dn_e⟩ := IH _ st_c.inv
    constructor
    · refine step_trans st_a (step_trans st_b (step_trans st_c (step_trans st_e ?_)))
      exact Step.of_ctrl st_e.inv rfl rfl
    · intro hw2 rid hmem nb hname href
      refine done_of_tables (dn_e ?_ rid hmem nb ?_ ?_) rfl rfl rfl rfl
      · simp [hw2]
      · simp [hname]
      · simp [href]
  case neg =>
    constructor
    · exact step_trans st_a (Step.of_ctrl st_a.inv rfl rfl)
    · intro hw2 rid hmem nb hname href
      exfalso
      simp [hw2] at hw
  case pos =>
    have st_c : Step (enter_scope s sid)
        { enter_scope s sid with this_depth := (enter_scope s sid).this_depth + 1 } :=
      Step.of_ctrl st_a.inv rfl rfl
    obtain ⟨st_e, dn_e⟩ := IH _ st_c.inv
    constructor
    · refine step_trans st_a (step_trans st_c (step_trans st_e ?_))
      exact Step.of_ctrl st_e.inv rfl rfl
    · intro hw2 rid hmem nb hname href
      refine done_of_tables (dn_e ?_ rid hmem nb ?_ ?_) rfl rfl rfl rfl
      · simp [hw2]
      · simp [hname]
      · simp [href]
  case neg =>
    constructor
    · exact step_trans st_a (Step.of_ctrl st_a.inv rfl rfl)
    · intro hw2 rid hmem nb hname href
      exfalso
      simp [hw2] at hw

theorem step_block_core (sid : Nat) (body : List Stmt)
    (IH : ∀ t, Inv t → StmtsOK body t) (s : VState) (hi : Inv s) :
    StmtOK (.block sid body) s := by
  unfold StmtOK
  simp only [visit_statement, stmtRefIds]
  have st_a := @step_enter_scope s sid hi
  obtain ⟨st_e, dn_e⟩ := IH _ st_a.inv
  constructor
  · exact step_trans st_a st_e
  · intro hw2 rid hmem nb hname href
    refine dn_e ?_ rid hmem nb ?_ ?_
    · simp [hw2]
    · simp [hname]
    · simp [href]

theorem step_static_block_core (sid : Nat) (body : List Stmt)
    (IH : ∀ t, Inv t → StmtsOK body t) (s : VState) (hi : Inv s) :
    ElemOK (.staticBlock sid body) s := by
  unfold ElemOK
  simp only [visit_class_element, elemRefIds]
  have st_a : Step s { s with this_depth := s.this_depth + 1 } := Step.of_ctrl hi rfl rfl
  have st_b := @step_enter_scope _ sid st_a.inv
  obtain ⟨st_e, dn_e⟩ := IH _ st_b.inv
  constructor
  · refine step_trans st_a (step_trans st_b (step_trans st_e ?_))
    exact Step.of_ctrl st_e.inv rfl rfl
  · intro hw2 rid hmem nb hname href
    refine done_of_tables (dn_e ?_ rid hmem nb ?_ ?_) rfl rfl rfl rfl
    · simp [hw2]
    · simp [hname]
    · simp [href]

end StepCore

section StepPropCore

theorem step_prop_some_core (c : Bool) (k vv : Expr)
    (IHk : ∀ t, Inv t → ExprOK k t) (IHv : ∀ t, Inv t → ExprOK vv t)
    (s : VState) (hi : Inv s) : ElemOK (.propertyDef c k (some vv)) s := by
  unfold ElemOK
  unfold ExprOK at IHk IHv
  simp only [visit_class_element, elemRefIds]
  split_ifs with hc
  case pos =>
    obtain ⟨st_k, dn_k⟩ := IHk s hi
    have st_m : Step (visit_expression s k).1
        { (visit_expression s k).1 with
          this_depth := (visit_expression s k).1.this_depth + 1 } :=
      Step.of_ctrl st_k.inv rfl rfl
    obtain ⟨st_v, dn_v⟩ := IHv _ st_m.inv
    refine ⟨step_trans st_k (step_trans st_m (step_trans st_v
      (Step.of_ctrl st_v.inv rfl rfl))), ?_⟩
    intro hw rid hmem nb hname href
    simp only [List.mem_append] at hmem
    rcases hmem with hm | hm
    · refine done_of_tables ((step_trans st_m st_v).done_mono rid
        (dn_k hw rid hm nb hname href)) rfl rfl rfl rfl
    · refine done_propagate hi (step_trans st_k st_m)
        (step_trans st_v (Step.of_ctrl st_v.inv rfl rfl)) hname href ?_
      intro nb2 h1 h2
      refine done_of_tables (dn_v ?_ rid hm nb2 h1 h2) rfl rfl rfl rfl
      simp [(frame_visit_expression k s).walk_deep, hw]
  case neg =>
    have st_m : Step s { s with this_depth := s.this_depth + 1 } := Step.of_ctrl hi rfl rfl
    obtain ⟨st_v, dn_v⟩ := IHv _ st_m.inv
    refine ⟨step_trans st_m (step_trans st_v (Step.of_ctrl st_v.inv rfl rfl)), ?_⟩
    intro hw rid hmem nb hname href
    simp only [List.nil_append] at hmem
    refine done_of_tables (dn_v ?_ rid hmem nb ?_ ?_) rfl rfl rfl rfl
    · simp [hw]
    · simp [hname]
    · simp [href]

theorem step_prop_none_core (c : Bool) (k : Expr)
    (IHk : ∀ t, Inv t → ExprOK k t) (s : VState) (hi : Inv s) :
    ElemOK (.propertyDef c k none) s := by
  unfold ElemOK
  unfold ExprOK at IHk
  simp only [visit_class_element, elemRefIds]
  split_ifs with hc
  case pos =>
    obtain ⟨st_k, dn_k⟩ := IHk s hi
    refine ⟨st_k, ?_⟩
    intro hw rid hmem nb hname href
    simp only [List.append_nil] at hmem
    exact dn_k hw rid hmem nb hname href
  case neg =>
    refine ⟨Step.refl_of_inv hi, ?_⟩
    intro hw rid hmem nb hname href
    simp at hmem

theorem step_acc_some_core (c : Bool) (k vv : Expr)
    (IHk : ∀ t, Inv t → ExprOK k t) (IHv : ∀ t, Inv t → ExprOK vv t)
    (s : VState) (hi : Inv s) : ElemOK (.accessorProp c k (some vv)) s := by
  unfold ElemOK
  unfold ExprOK at IHk IHv
  simp only [visit_class_element, elemRefIds]
  split_ifs with hc
  case pos =>
    obtain ⟨st_k, dn_k⟩ := IHk s hi
    have st_m : Step (visit_expression s k).1
        { (visit_expression s k).1 with
          this_depth := (visit_expression s k).1.this_depth + 1 } :=
      Step.of_ctrl st_k.inv rfl rfl
    obtain ⟨st_v, dn_v⟩ := IHv _ st_m.inv
    refine ⟨step_trans st_k (step_trans st_m (step_trans st_v
      (Step.of_ctrl st_v.inv rfl rfl))), ?_⟩
    intro hw rid hmem nb hname href
    simp only [List.mem_append] at hmem
    rcases hmem with hm | hm
    · refine done_of_tables ((step_trans st_m st_v).done_mono rid
        (dn_k hw rid hm nb hname href)) rfl rfl rfl rfl
    · refine done_propagate hi (step_trans st_k st_m)
        (step_trans st_v (Step.of_ctrl st_v.inv rfl rfl)) hname href ?_
      intro nb2 h1 h2
      refine done_of_tables (dn_v ?_ rid hm nb2 h1 h2) rfl rfl rfl rfl
      simp [(frame_visit_expression k s).walk_deep, hw]
  case neg =>
    have st_m : Step s { s with this_depth := s.this_depth + 1 } := Step.of_ctrl hi rfl rfl
    obtain ⟨st_v, dn_v⟩ := IHv _ st_m.inv
    refine ⟨step_trans st_m (step_trans st_v (Step.of_ctrl st_v.inv rfl rfl)), ?_⟩
    intro hw rid hmem nb hname href
    simp only [List.nil_append] at hmem
    refine done_of_tables (dn_v ?_ rid hmem nb ?_ ?_) rfl rfl rfl rfl
    · simp [hw]
    · simp [hname]
    · simp [href]

theorem step_acc_none_core (c : Bool) (k : Expr)
    (IHk : ∀ t, Inv t → ExprOK k t) (s : VState) (hi : Inv s) :
    ElemOK (.accessorProp c k none) s := by
  unfold ElemOK
  unfold ExprOK at IHk
  simp only [visit_class_element, elemRefIds]
  split_ifs with hc
  case pos =>
    obtain ⟨st_k, dn_k⟩ := IHk s hi
    refine ⟨st_k, ?_⟩
    intro hw rid hmem nb hname href
    simp only [List.append_nil] at hmem
    exact dn_k hw rid hmem nb hname href
  case neg =>
    refine ⟨Step.refl_of_inv hi, ?_⟩
    intro hw rid hmem nb hname href
    simp at hmem

end StepPropCore

section StepSeqCore

theorem step_this_core (span : Nat) (s : VState) (hi : Inv s) : ExprOK (.thisE span) s := by
  refine ⟨?_, ?_⟩
  · simp only [visit_expression]
    exact step_rtwt hi
  · intro _ rid hmem
    simp [exprRefIds] at hmem

theorem step_delete_this_core (span tspan : Nat) (s : VState) (hi : Inv s) :
    ExprOK (.deleteThis span tspan) s := by
  refine ⟨?_, ?_⟩
  · simp only [visit_expression]
    exact step_rdt hi
  · intro _ rid hmem
    simp [exprRefIds] at hmem

theorem step_super_core (span : Nat) (s : VState) (hi : Inv s) : ExprOK (.superE span) s := by
  refine ⟨Step.refl_of_inv hi, ?_⟩
  intro _ rid hmem
  simp [exprRefIds] at hmem

theorem step_bool_core (span : Nat) (v : Bool) (s : VState) (hi : Inv s) :
    ExprOK (.boolLit span v) s := by
  refine ⟨Step.refl_of_inv hi, ?_⟩
  intro _ rid hmem
  simp [exprRefIds] at hmem

theorem step_unary_core (span : Nat) (a : Expr)
    (IH : ∀ t, Inv t → ExprOK a t) (s : VState) (hi : Inv s) :
    ExprOK (.unary span a) s := by
  obtain ⟨st, dn⟩ := IH s hi
  refine ⟨?_, ?_⟩
  · simp only [visit_expression]
    exact st
  · intro hw rid hmem nb hname href
    simp only [exprRefIds] at hmem
    simp only [visit_expression]
    exact dn hw rid hmem nb hname href

theorem step_ident_core (span rid0 : Nat) (nm : String) (s : VState) (hi : Inv s) :
    ExprOK (.ident span rid0 nm) s := by
  refine ⟨?_, ?_⟩
  · simp only [visit_expression]
    exact step_rcnwt hi
  · intro hw rid hmem nb hname href
    simp only [exprRefIds, List.mem_singleton] at hmem
    subst hmem
    simp only [visit_expression]
    exact done_rcnwt hi nb hname href

theorem step_static_member_core (span : Nat) (o : Expr) (p : String)
    (IHo : ∀ t, Inv t → ExprOK o t) (s : VState) (hi : Inv s) :
    ExprOK (.staticMember span o p) s := by
  have st0 : Step s (transform_static_member_expression_if_super s span) :=
    Step.of_sameTables hi sameTables_tsme
  obtain ⟨st1, dn1⟩ := IHo _ st0.inv
  refine ⟨?_, ?_⟩
  · simp only [visit_expression]
    exact step_trans st0 st1
  · intro hw rid hmem nb hname href
    simp only [exprRefIds] at hmem
    simp only [visit_expression]
    refine done_propagate hi st0 st1 hname href ?_
    intro nb2 h1 h2
    exact dn1 (by simp [frame_tsme.walk_deep, hw]) rid hmem nb2 h1 h2

theorem step_computed_member_core (span : Nat) (o i : Expr)
    (IHo : ∀ t, Inv t → ExprOK o t) (IHi : ∀ t, Inv t → ExprOK i t)
    (s : VState) (hi : Inv s) : ExprOK (.computedMember span o i) s := by
  have st0 : Step s (transform_computed_member_expression_if_super s span) :=
    Step.of_sameTables hi sameTables_tcme
  obtain ⟨st1, dn1⟩ := IHo _ st0.inv
  obtain ⟨st2, dn2⟩ := IHi _ st1.inv
  refine ⟨?_, ?_⟩
  · simp only [visit_expression]
    exact step_trans st0 (step_trans st1 st2)
  · intro hw rid hmem nb hname href
    simp only [exprRefIds, List.mem_append] at hmem
    simp only [visit_expression]
    rcases hmem with hm | hm
    · refine st2.done_mono rid ?_
      refine done_propagate hi st0 st1 hname href ?_
      intro nb2 h1 h2
      exact dn1 (by simp [frame_tcme.walk_deep, hw]) rid hm nb2 h1 h2
    · refine done_propagate hi (step_trans st0 st1) st2 hname href ?_
      intro nb2 h1 h2
      have hw1 : (visit_expression
          (transform_computed_member_expression_if_super s span) o).1.walk_deep = true := by
        simp [(frame_visit_expression o
          (transform_computed_member_expression_if_super s span)).walk_deep,
          frame_tcme.walk_deep, hw]
      exact dn2 hw1 rid hm nb2 h1 h2

theorem step_call_core (span : Nat) (c : Expr) (args : List Expr)
    (IHc : ∀ t, Inv t → ExprOK c t) (IHa : ∀ t, Inv t → ExprListOK args t)
    (s : VState) (hi : Inv s) : ExprOK (.callE span c args) s := by
  have st0 : Step s (transform_call_expression_if_super_member_expression s span) :=
    Step.of_sameTables hi sameTables_tce
  obtain ⟨st1, dn1⟩ := IHc _ st0.inv
  obtain ⟨st2, dn2⟩ := IHa _ st1.inv
  refine ⟨?_, ?_⟩
  · simp only [visit_expression]
    exact step_trans st0 (step_trans st1 st2)
  · intro hw rid hmem nb hname href
    simp only [exprRefIds, List.mem_append] at hmem
    simp only [visit_expression]
    rcases hmem with hm | hm
    · refine st2.done_mono rid ?_
      refine done_propagate hi st0 st1 hname href ?_
      intro nb2 h1 h2
      exact dn1 (by simp [frame_tce.walk_deep, hw]) rid hm nb2 h1 h2
    · refine done_propagate hi (step_trans st0 st1) st2 hname href ?_
      intro nb2 h1 h2
      have hw1 : (visit_expression
          (transform_call_expression_if_super_member_expression s span) c).1.walk_deep
            = true := by
        simp [(frame_visit_expression c
          (transform_call_expression_if_super_member_expression s span)).walk_deep,
          frame_tce.walk_deep, hw]
      exact dn2 hw1 rid hm nb2 h1 h2

theorem step_assign_core (span : Nat) (tg v : Expr)
    (IHt : ∀ t, Inv t → TargetOK tg t) (IHv : ∀ t, Inv t → ExprOK v t)
    (s : VState) (hi : Inv s) : ExprOK (.assign span tg v) s := by
  have st0 : Step s (transform_assignment_expression_if_super s span) :=
    Step.of_sameTables hi sameTables_tae
  obtain ⟨st1, dn1⟩ := IHt _ st0.inv
  obtain ⟨st2, dn2⟩ := IHv _ st1.inv
  refine ⟨?_, ?_⟩
  · simp only [visit_expression]
    exact step_trans st0 (step_trans st1 st2)
  · intro hw rid hmem nb hname href
    simp only [exprRefIds, List.mem_append] at hmem
    simp only [visit_expression]
    rcases hmem with hm | hm
    · refine st2.done_mono rid ?_
      refine done_propagate hi st0 st1 hname href ?_
      intro nb2 h1 h2
      exact dn1 (by simp [frame_tae.walk_deep, hw]) rid hm nb2 h1 h2
    · refine done_propagate hi (step_trans st0 st1) st2 hname href ?_
      intro nb2 h1 h2
      have hw1 : (visit_assignment_target
          (transform_assignment_expression_if_super s span) tg).1.walk_deep = true := by
        simp [(frame_visit_assignment_target tg
          (transform_assignment_expression_if_super s span)).walk_deep,
          frame_tae.walk_deep, hw]
      exact dn2 hw1 rid hm nb2 h1 h2

theorem step_update_core (span : Nat) (tg : Expr)
    (IHt : ∀ t, Inv t → TargetOK tg t) (s : VState) (hi : Inv s) :
    ExprOK (.update span tg) s := by
  have st0 : Step s (transform_update_expression_if_super s span) :=
    Step.of_sameTables hi sameTables_tue
  obtain ⟨st1, dn1⟩ := IHt _ st0.inv
  refine ⟨?_, ?_⟩
  · simp only [visit_expression]
    exact step_trans st0 st1
  · intro hw rid hmem nb hname href
    simp only [exprRefIds] at hmem
    simp only [visit_expression]
    refine done_propagate hi st0 st1 hname href ?_
    intro nb2 h1 h2
    exact dn1 (by simp [frame_tue.walk_deep, hw]) rid hmem nb2 h1 h2

theorem step_target_ident_core (span rid0 : Nat) (nm : String) (s : VState) (hi : Inv s) :
    TargetOK (.ident span rid0 nm) s := by
  refine ⟨?_, ?_⟩
  · simp only [visit_assignment_target]
    exact step_rcnwt hi
  · intro hw rid hmem nb hname href
    simp only [targetRefIds, List.mem_singleton] at hmem
    subst hmem
    simp only [visit_assignment_target]
    exact done_rcnwt hi nb hname href

theorem step_target_static_member_core (span : Nat) (o : Expr) (p : String)
    (IHo : ∀ t, Inv t → ExprOK o t) (s : VState) (hi : Inv s) :
    TargetOK (.staticMember span o p) s := by
  obtain ⟨st1, dn1⟩ := IHo s hi
  refine ⟨?_, ?_⟩
  · simp only [visit_assignment_target]
    exact st1
  · intro hw rid hmem nb hname href
    simp only [targetRefIds] at hmem
    simp only [visit_assignment_target]
    exact dn1 hw rid hmem nb hname href

theorem step_target_computed_member_core (span : Nat) (o i : Expr)
    (IHo : ∀ t, Inv t → ExprOK o t) (IHi : ∀ t, Inv t → ExprOK i t)
    (s : VState) (hi : Inv s) : TargetOK (.computedMember span o i) s := by
  obtain ⟨st1, dn1⟩ := IHo s hi
  obtain ⟨st2, dn2⟩ := IHi _ st1.inv
  refine ⟨?_, ?_⟩
  · simp only [visit_assignment_target]
    exact step_trans st1 st2
  · intro hw rid hmem nb hname href
    simp only [targetRefIds, List.mem_append] at hmem
    simp only [visit_assignment_target]
    rcases hmem with hm | hm
    · exact st2.done_mono rid (dn1 hw rid hm nb hname href)
    · refine done_propagate hi st1 st2 hname href ?_
      intro nb2 h1 h2
      exact dn2 (by simp [(frame_visit_expression o s).walk_deep, hw]) rid hm nb2 h1 h2

theorem step_expr_cons_core (e : Expr) (rest : List Expr)
    (IH1 : ∀ t, Inv t → ExprOK e t) (IH2 : ∀ t, Inv t → ExprListOK rest t)
    (s : VState) (hi : Inv s) : ExprListOK (e :: rest) s := by
  obtain ⟨st1, dn1⟩ := IH1 s hi
  obtain ⟨st2, dn2⟩ := IH2 _ st1.inv
  refine ⟨?_, ?_⟩
  · simp only [visit_expression_list]
    exact step_trans st1 st2
  · intro hw rid hmem nb hname href
    simp only [exprListRefIds, List.mem_append] at hmem
    simp only [visit_expression_list]
    rcases hmem with hm | hm
    · exact st2.done_mono rid (dn1 hw rid hm nb hname href)
    · refine done_propagate hi st1 st2 hname href ?_
      intro nb2 h1 h2
      exact dn2 (by simp [(frame_visit_expression e s).walk_deep, hw]) rid hm nb2 h1 h2

theorem step_expr_stmt_core (e : Expr)
    (IH : ∀ t, Inv t → ExprOK e t) (s : VState) (hi : Inv s) : StmtOK (.exprStmt e) s := by
  obtain ⟨st, dn⟩ := IH s hi
  refine ⟨?_, ?_⟩
  · simp only [visit_statement]
    exact st
  · intro hw rid hmem nb hname href
    simp only [stmtRefIds] at hmem
    simp only [visit_statement]
    exact dn hw rid hmem nb hname href

theorem step_stmt_cons_core (st0 : Stmt) (rest : List Stmt)
    (IH1 : ∀ t, Inv t → StmtOK st0 t) (IH2 : ∀ t, Inv t → StmtsOK rest t)
    (s : VState) (hi : Inv s) : StmtsOK (st0 :: rest) s := by
  obtain ⟨st1, dn1⟩ := IH1 s hi
  obtain ⟨st2, dn2⟩ := IH2 _ st1.inv
  refine ⟨?_, ?_⟩
  · simp only [visit_statements]
    exact step_trans st1 st2
  · intro hw rid hmem nb hname href
    simp only [stmtListRefIds, List.mem_append] at hmem
    simp only [visit_statements]
    rcases hmem with hm | hm
    · exact st2.done_mono rid (dn1 hw rid hm nb hname href)
    · refine done_propagate hi st1 st2 hname href ?_
      intro nb2 h1 h2
      exact dn2 (by simp [(frame_visit_statement st0 s).walk_deep, hw]) rid hm nb2 h1 h2

theorem step_elem_cons_core (el : ClassElem) (rest : List ClassElem)
    (IH1 : ∀ t, Inv t → ElemOK el t) (IH2 : ∀ t, Inv t → ElemsOK rest t)
    (s : VState) (hi : Inv s) : ElemsOK (el :: rest) s := by
  obtain ⟨st1, dn1⟩ := IH1 s hi
  obtain ⟨st2, dn2⟩ := IH2 _ st1.inv
  refine ⟨?_, ?_⟩
  · simp only [visit_class_elements]
    exact step_trans st1 st2
  · intro hw rid hmem nb hname href
    simp only [elemListRefIds, List.mem_append] at hmem
    simp only [visit_class_elements]
    rcases hmem with hm | hm
    · exact st2.done_mono rid (dn1 hw rid hm nb hname href)
    · refine done_propagate hi st1 st2 hname href ?_
      intro nb2 h1 h2
      exact dn2 (by simp [(frame_visit_class_element el s).walk_deep, hw]) rid hm nb2 h1 h2

end StepSeqCore

mutual

theorem step_visit_expression : ∀ (e : Expr) (t : VState), Inv t → ExprOK e t
  | .thisE span, s, hi => step_this_core span s hi
  | .deleteThis span ts, s, hi => step_delete_this_core span ts s hi
  | .superE span, s, hi => step_super_core span s hi
  | .boolLit span v, s, hi => step_bool_core span v s hi
  | .unary span a, s, hi =>
      step_unary_core span a (fun t ht => step_visit_expression a t ht) s hi
  | .ident span rid0 nm, s, hi => step_ident_core span rid0 nm s hi
  | .staticMember span o p, s, hi =>
      step_static_member_core span o p (fun t ht => step_visit_expression o t ht) s hi
  | .computedMember span o i, s, hi =>
      step_computed_member_core span o i (fun t ht => step_visit_expression o t ht)
        (fun t ht => step_visit_expression i t ht) s hi
  | .callE span c args, s, hi =>
      step_call_core span c args (fun t ht => step_visit_expression c t ht)
        (fun t ht => step_visit_expression_list args t ht) s hi
  | .assign span tg v, s, hi =>
      step_assign_core span tg v (fun t ht => step_visit_assignment_target tg t ht)
        (fun t ht => step_visit_expression v t ht) s hi
  | .update span tg, s, hi =>
      step_update_core span tg (fun t ht => step_visit_assignment_target tg t ht) s hi
  | .fn sid us body, s, hi =>
      step_fn_core sid us body (fun t ht => step_visit_statements body t ht) s hi
  | .arrow sid us body, s, hi =>
      step_arrow_core sid us body (fun t ht => step_visit_statements body t ht) s hi
  | .classE sid els, s, hi =>
      step_class_core sid els (fun t ht => step_visit_class_elements els t ht) s hi

theorem step_visit_assignment_target : ∀ (tg : Expr) (t : VState), Inv t → TargetOK tg t
  | .ident span rid0 nm, s, hi => step_target_ident_core span rid0 nm s hi
  | .staticMember span o p, s, hi =>
      step_target_static_member_core span o p (fun t ht => step_visit_expression o t ht) s hi
  | .computedMember span o i, s, hi =>
      step_target_computed_member_core span o i (fun t ht => step_visit_expression o t ht)
        (fun t ht => step_visit_expression i t ht) s hi
  | .thisE span, s, hi => ⟨Step.refl_of_inv hi, by intro _ rid hmem; simp [targetRefIds] at hmem⟩
  | .superE span, s, hi => ⟨Step.refl_of_inv hi, by intro _ rid hmem; simp [targetRefIds] at hmem⟩
  | .deleteThis span ts, s, hi =>
      ⟨Step.refl_of_inv hi, by intro _ rid hmem; simp [targetRefIds] at hmem⟩
  | .unary span a, s, hi =>
      ⟨Step.refl_of_inv hi, by intro _ rid hmem; simp [targetRefIds] at hmem⟩
  | .boolLit span v, s, hi =>
      ⟨Step.refl_of_inv hi, by intro _ rid hmem; simp [targetRefIds] at hmem⟩
  | .callE span c args, s, hi =>
      ⟨Step.refl_of_inv hi, by intro _ rid hmem; simp [targetRefIds] at hmem⟩
  | .assign span tg v, s, hi =>
      ⟨Step.refl_of_inv hi, by intro _ rid hmem; simp [targetRefIds] at hmem⟩
  | .update span tg, s, hi =>
      ⟨Step.refl_of_inv hi, by intro _ rid hmem; simp [targetRefIds] at hmem⟩
  | .fn sid us body, s, hi =>
      ⟨Step.refl_of_inv hi, by intro _ rid hmem; simp [targetRefIds] at hmem⟩
  | .arrow sid us body, s, hi =>
      ⟨Step.refl_of_inv hi, by intro _ rid hmem; simp [targetRefIds] at hmem⟩
  | .classE sid els, s, hi =>
      ⟨Step.refl_of_inv hi, by intro _ rid hmem; simp [targetRefIds] at hmem⟩

theorem step_visit_expression_list : ∀ (es : List Expr) (t : VState), Inv t → ExprListOK es t
  | [], s, hi => ⟨Step.refl_of_inv hi, by intro _ rid hmem; simp [exprListRefIds] at hmem⟩
  | e :: rest, s, hi =>
      step_expr_cons_core e rest (fun t ht => step_visit_expression e t ht)
        (fun t ht => step_visit_expression_list rest t ht) s hi

theorem step_visit_statement : ∀ (st : Stmt) (t : VState), Inv t → StmtOK st t
  | .exprStmt e, s, hi =>
      step_expr_stmt_core e (fun t ht => step_visit_expression e t ht) s hi
  | .block sid body, s, hi =>
      step_block_core sid body (fun t ht => step_visit_statements body t ht) s hi
  | .moduleBlock sid us body, s, hi =>
      step_module_core sid us body (fun t ht => step_visit_statements body t ht) s hi

theorem step_visit_statements : ∀ (sts : List Stmt) (t : VState), Inv t → StmtsOK sts t
  | [], s, hi => ⟨Step.refl_of_inv hi, by intro _ rid hmem; simp [stmtListRefIds] at hmem⟩
  | st :: rest, s, hi =>
      step_stmt_cons_core st rest (fun t ht => step_visit_statement st t ht)
        (fun t ht => step_visit_statements rest t ht) s hi

theorem step_visit_class_element : ∀ (el : ClassElem) (t : VState), Inv t → ElemOK el t
  | .propertyDef c k (some vv), s, hi =>
      step_prop_some_core c k vv (fun t ht => step_visit_expression k t ht)
        (fun t ht => step_visit_expression vv t ht) s hi
  | .propertyDef c k none, s, hi =>
      step_prop_none_core c k (fun t ht => step_visit_expression k t ht) s hi
  | .accessorProp c k (some vv), s, hi =>
      step_acc_some_core c k vv (fun t ht => step_visit_expression k t ht)
        (fun t ht => step_visit_expression vv t ht) s hi
  | .accessorProp c k none, s, hi =>
      step_acc_none_core c k (fun t ht => step_visit_expression k t ht) s hi
  | .staticBlock sid body, s, hi =>
      step_static_block_core sid body (fun t ht => step_visit_statements body t ht) s hi

theorem step_visit_class_elements :
    ∀ (els : List ClassElem) (t : VState), Inv t → ElemsOK els t
  | [], s, hi => ⟨Step.refl_of_inv hi, by intro _ rid hmem; simp [elemListRefIds] at hmem⟩
  | el :: rest, s, hi =>
      step_elem_cons_core el rest (fun t ht => step_visit_class_element el t ht)
        (fun t ht => step_visit_class_elements rest t ht) s hi

end

section Claims

theorem getOrInit_eq_current (s : VState) :
    (getOrInitStaticBinding s.class_properties s.ctx).2.2 = currentTempBinding s := by
  cases h : s.class_properties.bindings.static_binding <;>
    simp [getOrInitStaticBinding, currentTempBinding, h]

/-- C1: a `this` expression met at this-context depth 0 is replaced wholesale by a read
expression of the class's temp binding with the same span (a fresh reference resolving
to the temp symbol); at depth greater than 0 it is left untouched.  A `this` directly
inside a nested ordinary function (which bumps the depth around its body) stays
untouched, while a `this` directly inside a nested arrow function (which leaves the
depth alone) is rewritten. -/
theorem C1_this_rewrite (s : VState) (span : Nat) :
    (s.this_depth = 0 →
      (visit_expression s (.thisE span)).2
          = .ident span s.ctx.next_reference_id (currentTempBinding s).name ∧
      (visit_expression s (.thisE span)).1.ctx.ref_symbol s.ctx.next_reference_id
          = some (currentTempBinding s).symbol_id) ∧
    (s.this_depth ≠ 0 → visit_expression s (.thisE span) = (s, .thisE span)) ∧
    (s.this_depth = 0 → ∀ sid us sp,
      (visit_expression s (.fn sid us [.exprStmt (.thisE sp)])).2
          = .fn sid us [.exprStmt (.thisE sp)]) ∧
    (s.this_depth = 0 → ∀ sid us sp,
      (visit_expression s (.arrow sid us [.exprStmt (.thisE sp)])).2
          = .arrow sid us [.exprStmt (.ident sp s.ctx.next_reference_id
              (currentTempBinding s).name)]) := by
  refine ⟨?_, ?_, ?_, ?_⟩
  · intro h
    constructor
    · simp only [visit_expression, replace_this_with_temp_var, h, if_pos]
      simp [getOrInit_eq_current]
    · simp only [visit_expression, replace_this_with_temp_var, h, if_pos]
      rw [show s.ctx.next_reference_id
          = (getOrInitStaticBinding s.class_properties s.ctx).2.1.next_reference_id by simp]
      simp only [csre_ref_symbol_fresh, getOrInit_eq_current]
  · intro h
    simp only [visit_expression]
    exact rtwt_of_ne h
  · intro h sid us sp
    simp only [visit_expression]
    split_ifs <;>
      simp [visit_statements, visit_statement, visit_expression,
        replace_this_with_temp_var, h]
  · intro h sid us sp
    simp only [visit_expression]
    split_ifs <;>
      cases hb : s.class_properties.bindings.static_binding <;>
      simp [visit_statements, visit_statement, visit_expression,
        replace_this_with_temp_var, h, getOrInitStaticBinding, currentTempBinding,
        createSpannedReadExpression, hb]


/-- C6: `delete this` met at this-context depth 0 is replaced by the boolean literal
`true` carrying the whole expression's span; at depth greater than 0 (e.g. inside a
nested ordinary function) it is left untouched. -/
theorem C6_delete_this (s : VState) (span tspan : Nat) :
    (s.this_depth = 0 →
      visit_expression s (.deleteThis span tspan) = (s, .boolLit span true)) ∧
    (s.this_depth ≠ 0 →
      visit_expression s (.deleteThis span tspan) = (s, .deleteThis span tspan)) ∧
    (s.this_depth = 0 → ∀ sid us,
      (visit_expression s (.fn sid us [.exprStmt (.deleteThis span tspan)])).2
          = .fn sid us [.exprStmt (.deleteThis span tspan)]) := by
  refine ⟨?_, ?_, ?_⟩
  · intro h
    simp [visit_expression, replace_delete_this_with_true, h]
  · intro h
    simp [visit_expression, replace_delete_this_with_true, h]
  · intro h sid us
    simp only [visit_expression]
    split_ifs <;>
      simp [visit_statements, visit_statement, visit_expression,
        replace_delete_this_with_true, h]

/-- C10: even when walk-deep is false, an ordinary function met at scope depth 0 has
its scope re-parented to the call-site scope, while its body is skipped and left
unmodified. -/
theorem C10_shallow_fn_reparented (s : VState) (sid : Nat) (us : Bool) (body : List Stmt)
    (hw : s.walk_deep = false) (hd : s.scope_depth = 0) :
    (visit_expression s (.fn sid us body)).1.ctx.scope_parent sid
        = some s.ctx.current_scope_id ∧
    (visit_expression s (.fn sid us body)).2 = .fn sid us body := by
  constructor
  · by_cases hc : (s.make_sloppy_mode && us) = true <;>
      simp [visit_expression, hc, hw, reparent_parent_self, hd]
  · by_cases hc : (s.make_sloppy_mode && us) = true <;>
      simp [visit_expression, hc, hw]


/-- C5: the visitor is constructed with walk-deep true iff make-sloppy is true or the
class has a name binding (so walk-deep false forces make-sloppy false); when walk-deep
is false an ordinary function's body and a module block's body are skipped entirely
and left unmodified — the only state effect on the function is the first-level scope
re-parent. -/
theorem C5_walk_deep (cp : ClassProperties) (ctx : Ctx) :
    ((newVisitor cp ctx).walk_deep = true ↔
      ((newVisitor cp ctx).make_sloppy_mode = true ∨ cp.bindings.name.isSome = true)) ∧
    ((newVisitor cp ctx).walk_deep = false →
      (newVisitor cp ctx).make_sloppy_mode = false) ∧
    (∀ (s : VState) (sid : Nat) (us : Bool) (body : List Stmt), s.walk_deep = false →
      visit_expression s (.fn sid us body)
        = (reparent_scope_if_first_level s sid, .fn sid us body)) ∧
    (∀ (s : VState) (sid : Nat) (us : Bool) (body : List Stmt), s.walk_deep = false →
      s.make_sloppy_mode = false →
      visit_statement s (.moduleBlock sid us body) = (s, .moduleBlock sid us body)) := by
  refine ⟨?_, ?_, ?_, ?_⟩
  · simp [newVisitor]
  · simp [newVisitor]
    intro h
    simp [h]
  · intro s sid us body hw
    by_cases hc : (s.make_sloppy_mode && us) = true
    · simp only [visit_expression]
      rw [if_pos hc, if_neg (by simp [hw] :
        ¬(reparent_scope_if_first_level { s with make_sloppy_mode := false }
            sid).walk_deep = true)]
      simp only [reparent_scope_if_first_level]
      split_ifs <;> simp
    · simp only [visit_expression]
      rw [if_neg hc, if_neg (by simp [hw] :
        ¬(reparent_scope_if_first_level s sid).walk_deep = true)]
      simp only [reparent_scope_if_first_level]
      split_ifs <;> simp
  · intro s sid us body hw hsl
    have hc : (s.make_sloppy_mode && us) = false := by simp [hsl]
    simp only [visit_statement]
    rw [enter_scope_of_not_sloppy hsl]
    rw [if_neg (by simp [hc] : ¬(s.make_sloppy_mode && us) = true)]
    rw [if_neg (by simp [hw] : ¬s.walk_deep = true)]
    try simp

/-- C7: each of the five `super`-member forms is delegated to the driver's
corresponding rewrite operation exactly when the this-context depth is 0; at depth
greater than 0 no delegate is invoked and the node is left untouched.  (The driver's
delegates are modelled as log-and-leave-in-place, so a `super.prop()` call logs the
call delegate and then, walking into the unchanged callee, the member delegate.) -/
theorem C7_super_delegation (s : VState) (span sp2 sp3 i : Nat) (p : String) :
    (s.this_depth = 0 →
      (visit_expression s (.staticMember span (.superE sp2) p)).1.ctx.super_log
          = s.ctx.super_log ++ [(.staticMember, span)] ∧
      (visit_expression s (.computedMember span (.superE sp2) (.boolLit i true))).1.ctx.super_log
          = s.ctx.super_log ++ [(.computedMember, span)] ∧
      (visit_expression s (.callE span (.staticMember sp2 (.superE sp3) p) [])).1.ctx.super_log
          = s.ctx.super_log ++ [(.callMember, span), (.staticMember, sp2)] ∧
      (visit_expression s (.assign span (.staticMember sp2 (.superE sp3) p)
          (.boolLit i true))).1.ctx.super_log
          = s.ctx.super_log ++ [(.assignTarget, span)] ∧
      (visit_expression s (.update span (.staticMember sp2 (.superE sp3) p))).1.ctx.super_log
          = s.ctx.super_log ++ [(.updateTarget, span)]) ∧
    (s.this_depth ≠ 0 →
      visit_expression s (.staticMember span (.superE sp2) p)
          = (s, .staticMember span (.superE sp2) p) ∧
      visit_expression s (.computedMember span (.superE sp2) (.boolLit i true))
          = (s, .computedMember span (.superE sp2) (.boolLit i true)) ∧
      visit_expression s (.callE span (.staticMember sp2 (.superE sp3) p) [])
          = (s, .callE span (.staticMember sp2 (.superE sp3) p) []) ∧
      visit_expression s (.assign span (.staticMember sp2 (.superE sp3) p) (.boolLit i true))
          = (s, .assign span (.staticMember sp2 (.superE sp3) p) (.boolLit i true)) ∧
      visit_expression s (.update span (.staticMember sp2 (.superE sp3) p))
          = (s, .update span (.staticMember sp2 (.superE sp3) p))) := by
  constructor
  · intro h
    refine ⟨?_, ?_, ?_, ?_, ?_⟩ <;>
      simp [visit_expression, visit_expression_list, visit_assignment_target,
        transform_static_member_expression_if_super,
        transform_computed_member_expression_if_super,
        transform_call_expression_if_super_member_expression,
        transform_assignment_expression_if_super,
        transform_update_expression_if_super, delegateSuper, h]
  · intro h
    refine ⟨?_, ?_, ?_, ?_, ?_⟩ <;>
      simp [visit_expression, visit_expression_list, visit_assignment_target,
        transform_static_member_expression_if_super,
        transform_computed_member_expression_if_super,
        transform_call_expression_if_super_member_expression,
        transform_assignment_expression_if_super,
        transform_update_expression_if_super, delegateSuper, h]


/-- C3: a scope met at scope depth 0 is re-parented to the scope current at the call
site — for an arrow-function initializer the arrow's scope's parent becomes the
call-site scope while every other scope's parent pointer is untouched — and a visit
started at scope depth greater than 0 changes no scope parent at all. -/
theorem C3_reparenting (s : VState) (sid : Nat) (us : Bool) (body : List Stmt) :
    (s.scope_depth = 0 →
      (visit_expression s (.arrow sid us body)).1.ctx.scope_parent sid
          = some s.ctx.current_scope_id) ∧
    (s.scope_depth = 0 → ∀ sc, sc ≠ sid →
      (visit_expression s (.arrow sid us body)).1.ctx.scope_parent sc
          = s.ctx.scope_parent sc) ∧
    (∀ e : Expr, 0 < s.scope_depth →
      (visit_expression s e).1.ctx.scope_parent = s.ctx.scope_parent) := by
  refine ⟨?_, ?_, ?_⟩
  · intro hd
    have hp : ∀ t : VState, 0 < t.scope_depth →
        (visit_statements t body).1.ctx.scope_parent = t.ctx.scope_parent :=
      fun t => (frame_visit_statements body t).parent_frame
    by_cases hc : (s.make_sloppy_mode && us) = true <;>
      simp [visit_expression, hc, hp, reparent_parent_self, hd]
  · intro hd sc hsc
    have hp : ∀ t : VState, 0 < t.scope_depth →
        (visit_statements t body).1.ctx.scope_parent = t.ctx.scope_parent :=
      fun t => (frame_visit_statements body t).parent_frame
    by_cases hc : (s.make_sloppy_mode && us) = true <;>
      simp [visit_expression, hc, hp, reparent_parent_other hsc, hd]
  · intro e hd
    exact (frame_visit_expression e s).parent_frame hd

/-- C4: with make-sloppy set, a first-level arrow function without its own
`"use strict"` directive has its scope's strict flag cleared; an arrow with its own
directive suppresses the propagation for its whole subtree, leaving every strict flag
unchanged, and a nested class (always strict) likewise leaves every strict flag
unchanged. -/
theorem C4_sloppy_propagation (s : VState) (sid : Nat) (body : List Stmt)
    (els : List ClassElem) :
    (s.make_sloppy_mode = true →
      (visit_expression s (.arrow sid false body)).1.ctx.scope_strict sid = false) ∧
    (s.make_sloppy_mode = true →
      (visit_expression s (.arrow sid true body)).1.ctx.scope_strict
          = s.ctx.scope_strict) ∧
    (visit_expression s (.classE sid els)).1.ctx.scope_strict = s.ctx.scope_strict := by
  refine ⟨?_, ?_, ?_⟩
  · intro h
    have hm : ∀ (t : VState) (sc : Nat), t.ctx.scope_strict sc = false →
        (visit_statements t body).1.ctx.scope_strict sc = false :=
      fun t sc => (frame_visit_statements body t).strict_mono sc
    simp [visit_expression, h, hm, enter_scope_strict_self]
  · intro h
    have hf : ∀ t : VState, t.make_sloppy_mode = false →
        (visit_statements t body).1.ctx.scope_strict = t.ctx.scope_strict :=
      fun t => (frame_visit_statements body t).strict_frame
    simp [visit_expression, h, hf, enter_scope_strict_of_not_sloppy]
  · have hf : ∀ t : VState, t.make_sloppy_mode = false →
        (visit_class_elements t els).1.ctx.scope_strict = t.ctx.scope_strict :=
      fun t => (frame_visit_class_elements els t).strict_frame
    simp [visit_expression, hf, enter_scope_strict_of_not_sloppy]

/-- C9: entering a nested class leaves the this-context depth unchanged; a property or
accessor definition visits a computed key at the current depth and its value at depth
plus one — so `this` in the computed key of a first-level nested class is rewritten to
the temp binding while `this` in that property's value is not. -/
theorem C9_nested_class_key_value (s : VState) (csid k v : Nat) :
    (s.this_depth = 0 →
      (visit_expression s (.classE csid
          [.propertyDef true (.thisE k) (some (.thisE v))])).2
        = .classE csid [.propertyDef true
            (.ident k s.ctx.next_reference_id (currentTempBinding s).name)
            (some (.thisE v))]) ∧
    (s.this_depth = 0 →
      (visit_expression s (.classE csid
          [.accessorProp true (.thisE k) (some (.thisE v))])).2
        = .classE csid [.accessorProp true
            (.ident k s.ctx.next_reference_id (currentTempBinding s).name)
            (some (.thisE v))]) ∧
    (∀ els, (visit_expression s (.classE csid els)).1.this_depth = s.this_depth) := by
  refine ⟨?_, ?_, ?_⟩
  · intro h
    cases hb : s.class_properties.bindings.static_binding <;>
      simp [visit_expression, visit_class_elements, visit_class_element,
        replace_this_with_temp_var, h, getOrInitStaticBinding, currentTempBinding,
        createSpannedReadExpression, hb]
  · intro h
    cases hb : s.class_properties.bindings.static_binding <;>
      simp [visit_expression, visit_class_elements, visit_class_element,
        replace_this_with_temp_var, h, getOrInitStaticBinding, currentTempBinding,
        createSpannedReadExpression, hb]
  · intro els
    exact (frame_visit_expression (.classE csid els) s).this_depth


/-- C2: an identifier reference whose resolved symbol is not the class's own name
symbol (or with no class name binding, or unresolved) is left unchanged; otherwise its
text is renamed to the temp binding's generated name and afterwards it resolves to the
temp symbol, appears exactly once in the temp symbol's reference set and no longer in
the class-name symbol's set — and the same holds for every class-name reference of an
arbitrary initializer (N references), via the full traversal. -/
theorem C2_identifier_rewrite :
    (∀ (s : VState) (sp rid : Nat) (nm : String),
      classNameSymId s = none →
      visit_expression s (.ident sp rid nm) = (s, .ident sp rid nm)) ∧
    (∀ (s : VState) (sp rid : Nat) (nm : String),
      s.ctx.ref_symbol rid = none →
      visit_expression s (.ident sp rid nm) = (s, .ident sp rid nm)) ∧
    (∀ (s : VState) (sp rid sym : Nat) (nm : String) (nb : Binding),
      s.class_properties.bindings.name = some nb →
      s.ctx.ref_symbol rid = some sym → sym ≠ nb.symbol_id →
      visit_expression s (.ident sp rid nm) = (s, .ident sp rid nm)) ∧
    (∀ (s : VState) (sp rid : Nat) (nm : String) (nb : Binding), Inv s →
      s.class_properties.bindings.name = some nb →
      s.ctx.ref_symbol rid = some nb.symbol_id →
      (visit_expression s (.ident sp rid nm)).2
          = .ident sp rid (currentTempBinding s).name ∧
      Done (visit_expression s (.ident sp rid nm)).1 rid) ∧
    (∀ (e : Expr) (s : VState), Inv s → s.walk_deep = true →
      ∀ rid, rid ∈ exprRefIds e → ∀ nb,
        s.class_properties.bindings.name = some nb →
        s.ctx.ref_symbol rid = some nb.symbol_id →
        Done (visit_expression s e).1 rid) := by
  refine ⟨?_, ?_, ?_, ?_, ?_⟩
  · intro s sp rid nm h
    have hname : s.class_properties.bindings.name = none := by
      simpa [classNameSymId] using h
    simp [visit_expression, replace_class_name_with_temp_var, hname]
  · intro s sp rid nm href
    cases hname : s.class_properties.bindings.name <;>
      simp [visit_expression, replace_class_name_with_temp_var, hname, href]
  · intro s sp rid sym nm nb hname href hsym
    simp [visit_expression, replace_class_name_with_temp_var, hname, href, hsym]
  · intro s sp rid nm nb hi hname href
    refine ⟨?_, ?_⟩
    · simp only [visit_expression]
      unfold replace_class_name_with_temp_var
      rw [hname, href]
      simp [getOrInit_eq_current]
    · simp only [visit_expression]
      exact done_rcnwt hi nb hname href
  · intro e s hi hw rid hm nb h1 h2
    exact (step_visit_expression e s hi).2 hw rid hm nb h1 h2

/-- C8: the class temp binding is created at most once and reused — an existing
binding is returned unchanged by the create-if-absent operation, after any call the
binding is present, it survives any further visit and any further initializer
transform of the same class, and a depth-0 `this` rewrite followed by a class-name
rewrite resolve to the identical temp symbol and name. -/
theorem C8_temp_binding_created_once :
    (∀ (cp : ClassProperties) (ctx : Ctx) (b : Binding),
      cp.bindings.static_binding = some b →
      getOrInitStaticBinding cp ctx = (cp, ctx, b)) ∧
    (∀ (cp : ClassProperties) (ctx : Ctx),
      (getOrInitStaticBinding cp ctx).1.bindings.static_binding
        = some (getOrInitStaticBinding cp ctx).2.2) ∧
    (∀ (e : Expr) (s : VState) (b : Binding),
      tempOf s = some b → tempOf (visit_expression s e).1 = some b) ∧
    (∀ (cp : ClassProperties) (ctx : Ctx) (v1 v2 : Expr) (b : Binding),
      (transform_static_initializer cp ctx v1).1.bindings.static_binding = some b →
      (transform_static_initializer (transform_static_initializer cp ctx v1).1
          (transform_static_initializer cp ctx v1).2.1 v2).1.bindings.static_binding
        = some b) ∧
    (∀ (s : VState) (sp sp2 rid : Nat) (nm : String) (nb : Binding), Inv s →
      s.this_depth = 0 →
      s.class_properties.bindings.name = some nb →
      s.ctx.ref_symbol rid = some nb.symbol_id →
      (visit_expression s (.thisE sp)).2
          = .ident sp s.ctx.next_reference_id (currentTempBinding s).name ∧
      (visit_expression (visit_expression s (.thisE sp)).1 (.ident sp2 rid nm)).2
          = .ident sp2 rid (currentTempBinding s).name ∧
      (visit_expression (visit_expression s (.thisE sp)).1
          (.ident sp2 rid nm)).1.ctx.ref_symbol rid
          = some (currentTempBinding s).symbol_id) := by
  refine ⟨?_, ?_, ?_, ?_, ?_⟩
  · intro cp ctx b h
    exact getOrInit_of_some h
  · intro cp ctx
    exact getOrInit_static
  · intro e s b h
    exact (frame_visit_expression e s).temp_mono b h
  · intro cp ctx v1 v2 b h
    exact (frame_visit_expression v2
      (newVisitor (transform_static_initializer cp ctx v1).1
        (transform_static_initializer cp ctx v1).2.1)).temp_mono b h
  · intro s sp sp2 rid nm nb hi hdep hname href
    have hrlt := lt_next_of_ref_some hi href
    have hrne : rid ≠ s.ctx.next_reference_id := by omega
    cases hb : s.class_properties.bindings.static_binding <;>
      refine ⟨?_, ?_, ?_⟩ <;>
      simp [visit_expression, replace_this_with_temp_var, hdep,
        replace_class_name_with_temp_var, getOrInitStaticBinding, hb,
        createSpannedReadExpression, currentTempBinding, hname, href, hrne]


theorem inv_sampleState : Inv sampleState := by
  refine ⟨?_, ?_, ?_, ?_, ?_⟩
  · intro sym rid hm
    by_cases h : sym = 0
    · subst h
      simp [sampleState, newVisitor, sampleCtx] at hm ⊢
      rcases hm with h0 | h1
      · subst h0; simp
      · subst h1; simp
    · simp [sampleState, newVisitor, sampleCtx, h] at hm
  · intro sym rid hge
    simp only [sampleState, newVisitor, sampleCtx] at hge ⊢
    by_cases h : sym = 0 <;> simp [h] <;> omega
  · intro rid hge
    simp only [sampleState, newVisitor, sampleCtx] at hge ⊢
    split_ifs <;> first | omega | rfl
  · intro nb hnb
    simp [sampleState, newVisitor, sampleCP] at hnb
    subst hnb
    simp [sampleState, newVisitor, sampleCtx]
  · intro b nb hb hnb
    simp [sampleState, newVisitor, sampleCP, tempOf] at hb

theorem C1_witness :
    sampleState.this_depth = 0 ∧
    (visit_expression sampleState (.thisE 7)).2 = .ident 7 2 "_C" :=
  ⟨rfl, ((C1_this_rewrite sampleState 7).1 rfl).1⟩

theorem C2_witness :
    Inv sampleState ∧ sampleState.walk_deep = true ∧
    Done (visit_expression sampleState
      (.computedMember 9 (.ident 10 0 "C") (.ident 11 1 "C"))).1 0 ∧
    Done (visit_expression sampleState
      (.computedMember 9 (.ident 10 0 "C") (.ident 11 1 "C"))).1 1 := by
  refine ⟨inv_sampleState, rfl, ?_, ?_⟩
  · exact C2_identifier_rewrite.2.2.2.2
      (.computedMember 9 (.ident 10 0 "C") (.ident 11 1 "C")) sampleState
      inv_sampleState rfl 0 (by decide) ⟨0, "C"⟩ rfl rfl
  · exact C2_identifier_rewrite.2.2.2.2
      (.computedMember 9 (.ident 10 0 "C") (.ident 11 1 "C")) sampleState
      inv_sampleState rfl 1 (by decide) ⟨0, "C"⟩ rfl rfl

theorem C3_witness :
    sampleState.scope_depth = 0 ∧
    (visit_expression sampleState (.arrow 42 false [.block 7 []])).1.ctx.scope_parent 42
        = some 100 ∧
    (visit_expression sampleState (.arrow 42 false [.block 7 []])).1.ctx.scope_parent 7
        = sampleState.ctx.scope_parent 7 := by
  refine ⟨rfl, ?_, ?_⟩
  · exact (C3_reparenting sampleState 42 false [.block 7 []]).1 rfl
  · exact (C3_reparenting sampleState 42 false [.block 7 []]).2.1 rfl 7 (by decide)

theorem C4_witness :
    sloppyState.make_sloppy_mode = true ∧
    (visit_expression sloppyState (.arrow 42 false [.block 7 []])).1.ctx.scope_strict 42
        = false ∧
    (visit_expression sloppyState (.arrow 42 true [.block 7 []])).1.ctx.scope_strict
        = sloppyState.ctx.scope_strict := by
  refine ⟨rfl, ?_, ?_⟩
  · exact (C4_sloppy_propagation sloppyState 42 [.block 7 []] []).1 rfl
  · exact (C4_sloppy_propagation sloppyState 42 [.block 7 []] []).2.1 rfl

theorem C5_witness :
    shallowState.walk_deep = false ∧ shallowState.make_sloppy_mode = false ∧
    visit_expression shallowState (.fn 42 false [.exprStmt (.thisE 1)])
        = (reparent_scope_if_first_level shallowState 42,
           .fn 42 false [.exprStmt (.thisE 1)]) ∧
    visit_statement shallowState (.moduleBlock 8 false [.exprStmt (.thisE 1)])
        = (shallowState, .moduleBlock 8 false [.exprStmt (.thisE 1)]) := by
  refine ⟨rfl, rfl, ?_, ?_⟩
  · exact (C5_walk_deep unnamedCP sampleCtx).2.2.1 shallowState 42 false
      [.exprStmt (.thisE 1)] rfl
  · exact (C5_walk_deep unnamedCP sampleCtx).2.2.2 shallowState 8 false
      [.exprStmt (.thisE 1)] rfl rfl

theorem C6_witness :
    sampleState.this_depth = 0 ∧
    visit_expression sampleState (.deleteThis 3 4) = (sampleState, .boolLit 3 true) :=
  ⟨rfl, (C6_delete_this sampleState 3 4).1 rfl⟩

theorem C7_witness :
    sampleState.this_depth = 0 ∧
    (visit_expression sampleState
      (.staticMember 3 (.superE 4) "x")).1.ctx.super_log = [(.staticMember, 3)] ∧
    (visit_expression sampleState
      (.update 5 (.staticMember 6 (.superE 7) "y"))).1.ctx.super_log
        = [(.updateTarget, 5)] := by
  refine ⟨rfl, ?_, ?_⟩
  · exact ((C7_super_delegation sampleState 3 4 0 0 "x").1 rfl).1
  · exact ((C7_super_delegation sampleState 5 6 7 0 "y").1 rfl).2.2.2.2

theorem C8_witness :
    Inv sampleState ∧ sampleState.this_depth = 0 ∧
    (visit_expression sampleState (.thisE 3)).2 = .ident 3 2 "_C" ∧
    (visit_expression (visit_expression sampleState (.thisE 3)).1
        (.ident 4 0 "C")).2 = .ident 4 0 "_C" ∧
    (visit_expression (visit_expression sampleState (.thisE 3)).1
        (.ident 4 0 "C")).1.ctx.ref_symbol 0 = some 1 := by
  have h := C8_temp_binding_created_once.2.2.2.2 sampleState 3 4 0 "C" ⟨0, "C"⟩
    inv_sampleState rfl rfl rfl
  exact ⟨inv_sampleState, rfl, h.1, h.2.1, h.2.2⟩

theorem C9_witness :
    sampleState.this_depth = 0 ∧
    (visit_expression sampleState
        (.classE 42 [.propertyDef true (.thisE 1) (some (.thisE 2))])).2
      = .classE 42 [.propertyDef true (.ident 1 2 "_C") (some (.thisE 2))] :=
  ⟨rfl, (C9_nested_class_key_value sampleState 42 1 2).1 rfl⟩

theorem C10_witness :
    shallowState.walk_deep = false ∧ shallowState.scope_depth = 0 ∧
    (visit_expression shallowState
        (.fn 42 false [.exprStmt (.thisE 1)])).1.ctx.scope_parent 42 = some 100 ∧
    (visit_expression shallowState (.fn 42 false [.exprStmt (.thisE 1)])).2
      = .fn 42 false [.exprStmt (.thisE 1)] := by
  have h := C10_shallow_fn_reparented shallowState 42 false [.exprStmt (.thisE 1)] rfl rfl
  exact ⟨rfl, rfl, h.1, h.2⟩

end Claims

end StaticPropInit








